import Mathlib

/-!
# images-archiver: the two-stage caching pipeline

A shallow embedding of `setupCacheDir`, `downloadImagesToCache` (cache.go),
`createPolicyContext` (policy.go), `createArchiveFromCache` (archive.go),
`SetupPipe` (third_party/podman/utils_linux.go) and `run` (main.go).

The Go functions are effectful; here every function takes the current `World`
and returns the new `World` together with its result (`Except String _`, the
error being the rendered Go error message).  The collaborators that are not
part of the repository (the `os` package, the image transports, the copy
operation, the docker-archive writer) are modelled by their documented
contract: whether a call fails is decided by the `Env` oracle, what a
successful call does to the `World` is fixed by the contract.
-/

namespace ImagesArchiver

/-! ## Data model -/

/-- A file-system path, as the list of its components below the root. -/
abbrev Path := List String

/-- Splitting of the characters of a path string at every slash; empty
components are dropped and relative paths are resolved against the root. -/
def splitAux : List Char → List Char → List String
  | [], cur => if cur = [] then [] else [String.mk cur.reverse]
  | c :: cs, cur =>
    if c = '/' then
      (if cur = [] then splitAux cs [] else String.mk cur.reverse :: splitAux cs [])
    else splitAux cs (c :: cur)

/-- The components of a path string. -/
def splitPath (s : String) : Path := splitAux s.data []

/-- What a file-system entry is. -/
inductive Node
  | file (content : String)
  | dir (perm : Nat)
  | fifo (perm : Nat)
  deriving DecidableEq, Repr

/-- A parsed docker reference (`reference.Named`): the normalized repository
name, and the tag and digest when the reference carries them.  The value is a
`reference.NamedTagged` exactly when `tag` is present. -/
structure Named where
  name : String
  tag : Option String
  digest : Option String
  deriving DecidableEq, Repr

/-- Rendering of a reference, `Named.String()`. -/
def Named.render (r : Named) : String :=
  r.name ++ (match r.tag with | some t => ":" ++ t | none => "")
    ++ (match r.digest with | some d => "@" ++ d | none => "")

/-- An image reference of one of the three transports the program uses
(`types.ImageReference`). -/
inductive ImageRef
  | docker (name : String)
  | layout (dir : String) (tag : String)
  | archive (tagged : Named)
  deriving DecidableEq, Repr

/-- The trust policy requirements (`signature.PolicyRequirement`). -/
inductive PolicyRequirement
  | insecureAcceptAnything
  deriving DecidableEq, Repr

/-- The policy (`signature.Policy`). -/
structure Policy where
  default : List PolicyRequirement
  deriving DecidableEq, Repr

/-- The policy context (`signature.PolicyContext`). -/
structure PolicyContext where
  policy : Policy
  deriving DecidableEq, Repr

/-- The options of a copy (`copy.Options`); the system contexts are the empty
default context throughout and are not represented. -/
structure CopyOptions where
  reportWriter : Option String
  deriving DecidableEq, Repr

/-- The calls the program makes to its collaborators, in the order made. -/
inductive Event
  | removeAll (path : String)
  | mkdirAll (path : String) (perm : Nat)
  | stat (path : String)
  | remove (path : String)
  | isTerminal
  | mkdirTemp (dir : String) (pattern : String)
  | mkfifo (path : String) (perm : Nat)
  | startDrain (pipePath : String)
  | recvDrain
  | newPolicyContext
  | parseImageName (s : String)
  | layoutNewReference (dir : String) (tag : String)
  | copyImage (dest : ImageRef) (src : ImageRef)
  | newWriter (path : String)
  | parseNormalizedNamed (s : String)
  | withTag (named : Named) (tag : String)
  | writerNewReference (tagged : Named)
  | writerClose
  deriving DecidableEq, Repr

/-- The state the program acts on. `fs` is the file system (the first entry
for a path is the one in force), `slots` the images stored in OCI layouts
(layout directory and tag to image), `archive` and `sealed` the state of the
docker-archive writer, `trace` the collaborator calls made so far, `stderr`
and `log` what was printed to standard error and logged through logrus. -/
structure World where
  fs : List (Path × Node)
  slots : List ((Path × String) × String)
  archive : List (Named × String)
  sealed : Bool
  trace : List Event
  stderr : List String
  log : List String

/-- Record a collaborator call. -/
def World.emit (w : World) (e : Event) : World := { w with trace := w.trace ++ [e] }

/-- Print to standard error (`fmt.Fprintf(os.Stderr, ...)`). -/
def World.eprint (w : World) (s : String) : World := { w with stderr := w.stderr ++ [s] }

/-- Log an error (`logrus.Errorf`). -/
def World.logError (w : World) (s : String) : World := { w with log := w.log ++ [s] }

/-- The outcomes of the collaborators. A field named `...Err` gives the cause
when the call fails and `none` when it succeeds. The file-system calls depend
on the state they are made in; the image collaborators are functions of the
arguments of the call (within one run no two copies have the same source and
destination, so the copies of different entries fail independently). -/
structure Env where
  stdoutIsTerminal : Bool
  tempDir : String
  removeAllErr : World → String → Option String
  removeAllKeeps : World → String → Path → Bool
  mkdirAllErr : World → String → Nat → Option String
  removeErr : World → String → Option String
  mkdirTempRes : World → String → String → Except String String
  mkfifoErr : World → String → Nat → Option String
  drainErr : World → Option String
  newPolicyContextErr : Policy → Option String
  parseImageNameErr : String → Option String
  layoutNewReferenceErr : String → String → Option String
  copyErr : ImageRef → ImageRef → Option String
  newWriterErr : World → String → Option String
  parseNormalizedNamedRes : String → Except String Named
  withTagErr : Named → String → Option String
  writerNewReferenceErr : Named → Option String
  writerCloseErr : World → Option String

/-! ## The file system (`os`, `unix`) -/

/-- The entry in force at a path. -/
def lookupNode (fs : List (Path × Node)) (p : Path) : Option Node :=
  match fs.find? (fun e => e.1 = p) with
  | some e => some e.2
  | none => none

/-- Whether `q` is `p` or lies below `p`. -/
def inside (p q : Path) : Bool := p.isPrefixOf q

/-- The path itself and all its ancestors below the root, outermost first. -/
def ancestors : Path → List Path
  | [] => []
  | c :: cs => [c] :: (ancestors cs).map (fun q => c :: q)

/-- The call `os.RemoveAll`: removes the path and everything below it; an absent path
is no error, the empty string is accepted silently, the root cannot be
removed. When it fails it has removed what it could. -/
def osRemoveAll (env : Env) (w : World) (path : String) : World × Except String Unit :=
  let w1 := w.emit (Event.removeAll path)
  if path = "" then (w1, .ok ())
  else
    let p := splitPath path
    let cause : Option String :=
      if p = [] then some ("unlinkat " ++ path ++ ": device or resource busy")
      else env.removeAllErr w path
    match cause with
    | some e =>
      ({ w1 with
          fs := w1.fs.filter (fun n => !(inside p n.1) || env.removeAllKeeps w path n.1)
          slots := w1.slots.filter
            (fun s => !(inside p s.1.1) || env.removeAllKeeps w path s.1.1) },
        .error e)
    | none =>
      ({ w1 with
          fs := w1.fs.filter (fun n => !(inside p n.1))
          slots := w1.slots.filter (fun s => !(inside p s.1.1)) },
        .ok ())

/-- The call `os.MkdirAll`: creates the directory and the missing parents with the
given permission bits (before umask); a path that is already a directory is
left as it is. -/
def osMkdirAll (env : Env) (w : World) (path : String) (perm : Nat) :
    World × Except String Unit :=
  let w1 := w.emit (Event.mkdirAll path perm)
  let p := splitPath path
  if p = [] then
    (if path = "" then (w1, .error "mkdir : no such file or directory") else (w1, .ok ()))
  else
    match env.mkdirAllErr w path perm with
    | some e => (w1, .error e)
    | none =>
      match lookupNode w1.fs p with
      | some (Node.dir _) => (w1, .ok ())
      | _ =>
        if (ancestors p).any
            (fun q => match lookupNode w1.fs q with
              | some (Node.dir _) => false
              | some _ => true
              | none => false) then
          (w1, .error ("mkdir " ++ path ++ ": not a directory"))
        else
          ({ w1 with
              fs := w1.fs ++ ((ancestors p).filter
                (fun q => (lookupNode w1.fs q).isNone)).map (fun q => (q, Node.dir perm)) },
            .ok ())

/-- The call `os.Stat`: succeeds exactly when there is an entry at the path. -/
def osStat (w : World) (path : String) : World × Except String Node :=
  let w1 := w.emit (Event.stat path)
  match lookupNode w1.fs (splitPath path) with
  | some n => (w1, .ok n)
  | none => (w1, .error ("stat " ++ path ++ ": no such file or directory"))

/-- The call `os.Remove`: removes a file or an empty directory. -/
def osRemove (env : Env) (w : World) (path : String) : World × Except String Unit :=
  let w1 := w.emit (Event.remove path)
  let p := splitPath path
  match env.removeErr w path with
  | some e => (w1, .error e)
  | none =>
    match lookupNode w1.fs p with
    | none => (w1, .error ("remove " ++ path ++ ": no such file or directory"))
    | some n =>
      if (match n with | Node.dir _ => true | _ => false)
          && (w1.fs.any (fun e => inside p e.1 && decide (e.1 ≠ p))
            || w1.slots.any (fun s => inside p s.1.1)) then
        (w1, .error ("remove " ++ path ++ ": directory not empty"))
      else
        ({ w1 with fs := w1.fs.filter (fun e => decide (e.1 ≠ p)) }, .ok ())

/-- The call `os.MkdirTemp`: creates a new directory, named by the system, for the
caller alone. -/
def osMkdirTemp (env : Env) (w : World) (dir pattern : String) : World × Except String String :=
  let w1 := w.emit (Event.mkdirTemp dir pattern)
  match env.mkdirTempRes w dir pattern with
  | .error e => (w1, .error e)
  | .ok name => ({ w1 with fs := (splitPath name, Node.dir 0o700) :: w1.fs }, .ok name)

/-- The call `unix.Mkfifo`: creates a named pipe. -/
def unixMkfifo (env : Env) (w : World) (path : String) (perm : Nat) :
    World × Except String Unit :=
  let w1 := w.emit (Event.mkfifo path perm)
  match env.mkfifoErr w path perm with
  | some e => (w1, .error e)
  | none =>
    match lookupNode w1.fs (splitPath path) with
    | some _ => (w1, .error "file exists")
    | none => ({ w1 with fs := w1.fs ++ [(splitPath path, Node.fifo perm)] }, .ok ())

/-- The call `term.IsTerminal(int(os.Stdout.Fd()))`. -/
def termIsTerminal (env : Env) (w : World) : World × Bool :=
  (w.emit Event.isTerminal, env.stdoutIsTerminal)

/-! ## The image collaborators -/

/-- The call `signature.NewPolicyContext`. -/
def signatureNewPolicyContext (env : Env) (w : World) (policy : Policy) :
    World × Except String PolicyContext :=
  let w1 := w.emit Event.newPolicyContext
  match env.newPolicyContextErr policy with
  | some e => (w1, .error e)
  | none => (w1, .ok { policy := policy })

/-- The call `alltransports.ParseImageName`: the program only passes names of the
docker transport. -/
def alltransportsParseImageName (env : Env) (w : World) (imgName : String) :
    World × Except String ImageRef :=
  let w1 := w.emit (Event.parseImageName imgName)
  match env.parseImageNameErr imgName with
  | some e => (w1, .error e)
  | none => (w1, .ok (ImageRef.docker imgName))

/-- The call `layout.NewReference`. -/
def layoutNewReference (env : Env) (w : World) (dir tag : String) :
    World × Except String ImageRef :=
  let w1 := w.emit (Event.layoutNewReference dir tag)
  match env.layoutNewReferenceErr dir tag with
  | some e => (w1, .error e)
  | none => (w1, .ok (ImageRef.layout dir tag))

/-- The call `reference.ParseNormalizedNamed`. -/
def referenceParseNormalizedNamed (env : Env) (w : World) (s : String) :
    World × Except String Named :=
  (w.emit (Event.parseNormalizedNamed s), env.parseNormalizedNamedRes s)

/-- The call `reference.WithTag`: combines the name with the tag (the digest, if any,
is kept). -/
def referenceWithTag (env : Env) (w : World) (named : Named) (tag : String) :
    World × Except String Named :=
  let w1 := w.emit (Event.withTag named tag)
  match env.withTagErr named tag with
  | some e => (w1, .error e)
  | none => (w1, .ok { named with tag := some tag })

/-- Storing an image in a slot of a layout, in place of what the slot held. -/
def putSlot (slots : List ((Path × String) × String)) (key : Path × String) (img : String) :
    List ((Path × String) × String) :=
  (key, img) :: slots.filter (fun s => decide (s.1 ≠ key))

/-- The image a source reference gives access to: a registry image is
identified by its reference, a layout image is what the slot holds. -/
def readImage (w : World) : ImageRef → Option String
  | ImageRef.docker name => some name
  | ImageRef.layout dir tag =>
    match w.slots.find? (fun s => s.1 = (splitPath dir, tag)) with
    | some s => some s.2
    | none => none
  | ImageRef.archive _ => none

/-- The call `copy.Image`: copies the source image to the destination. -/
def copyImage (env : Env) (w : World) (policyContext : PolicyContext) (destRef srcRef : ImageRef)
    (options : CopyOptions) : World × Except String Unit :=
  let w1 := w.emit (Event.copyImage destRef srcRef)
  match env.copyErr destRef srcRef with
  | some e => (w1, .error e)
  | none =>
    match readImage w1 srcRef with
    | none => (w1, .error "reading manifest: image not found")
    | some img =>
      match destRef with
      | ImageRef.layout dir tag =>
        ({ w1 with slots := putSlot w1.slots (splitPath dir, tag) img }, .ok ())
      | ImageRef.archive tagged =>
        if w1.sealed then (w1, .error "writing to a closed archive")
        else ({ w1 with archive := w1.archive ++ [(tagged, img)] }, .ok ())
      | ImageRef.docker _ => (w1, .error "unsupported destination")

/-- The call `archive.NewWriter`: opens the destination for writing, creating it when
it is absent; a regular file that already has content is refused. -/
def archiveNewWriter (env : Env) (w : World) (path : String) : World × Except String Unit :=
  let w1 := w.emit (Event.newWriter path)
  match env.newWriterErr w path with
  | some e => (w1, .error e)
  | none =>
    match lookupNode w1.fs (splitPath path) with
    | some (Node.dir _) => (w1, .error ("opening file " ++ path ++ ": is a directory"))
    | some (Node.fifo _) => ({ w1 with archive := [], sealed := false }, .ok ())
    | some (Node.file c) =>
      if c = "" then ({ w1 with archive := [], sealed := false }, .ok ())
      else (w1, .error "docker-archive doesn't support modifying existing images")
    | none =>
      ({ w1 with
          fs := w1.fs ++ [(splitPath path, Node.file "")], archive := [], sealed := false },
        .ok ())

/-- The call `Writer.NewReference`. -/
def writerNewReference (env : Env) (w : World) (tagged : Named) :
    World × Except String ImageRef :=
  let w1 := w.emit (Event.writerNewReference tagged)
  match env.writerNewReferenceErr tagged with
  | some e => (w1, .error e)
  | none => (w1, .ok (ImageRef.archive tagged))

/-- The call `Writer.Close`: seals the archive. -/
def writerClose (env : Env) (w : World) : World × Except String Unit :=
  let w1 := w.emit Event.writerClose
  match env.writerCloseErr w with
  | some e => (w1, .error e)
  | none => ({ w1 with sealed := true }, .ok ())

/-! ## cache.go -/

/-- The function `setupCacheDir` of cache.go. -/
def setupCacheDir (env : Env) (w : World) (cacheDir : String) : World × Except String Unit :=
  match osRemoveAll env w cacheDir with
  | (w1, .error err) => (w1, .error ("failed to clean cache directory: " ++ err))
  | (w1, .ok ()) =>
    match osMkdirAll env w1 cacheDir 0o750 with
    | (w2, .error err) => (w2, .error ("failed to create cache directory: " ++ err))
    | (w2, .ok ()) => (w2, .ok ())

/-- The line printed when an entry fails, `"  [%d/%d] ✗ Failed: %s - %v\n"`. -/
def failedLine (i n : Nat) (rawRef err : String) : String :=
  "  [" ++ toString (i + 1) ++ "/" ++ toString n ++ "] ✗ Failed: " ++ rawRef ++ " - " ++ err
    ++ "\n"

/-- One iteration of the loop of `downloadImagesToCache`, for the entry
`rawRef` at index `i` of `n`; the second component is `downloadErrors`. -/
def downloadEntry (env : Env) (cacheDir : String) (progressWriter : Option String)
    (policyContext : PolicyContext) (n i : Nat) (rawRef : String) (w : World)
    (downloadErrors : List String) : World × List String :=
  let w0 := w.eprint
    ("  [" ++ toString (i + 1) ++ "/" ++ toString n ++ "] Caching: " ++ rawRef ++ "\n")
  match alltransportsParseImageName env w0 ("docker://" ++ rawRef) with
  | (w1, .error err) =>
    let err1 := "invalid source image reference " ++ rawRef ++ ": " ++ err
    (w1.eprint (failedLine i n rawRef err1), downloadErrors ++ [err1])
  | (w1, .ok srcRef) =>
    let cacheTag := "img-" ++ toString i
    match layoutNewReference env w1 cacheDir cacheTag with
    | (w2, .error err) =>
      let err1 := "failed to create OCI cache reference: " ++ err
      (w2.eprint (failedLine i n rawRef err1), downloadErrors ++ [err1])
    | (w2, .ok destRef) =>
      match copyImage env w2 policyContext destRef srcRef { reportWriter := progressWriter } with
      | (w3, .error err) =>
        let err1 := "failed to cache image " ++ rawRef ++ ": " ++ err
        (w3.eprint (failedLine i n rawRef err1), downloadErrors ++ [err1])
      | (w3, .ok ()) =>
        (w3.eprint
          ("  [" ++ toString (i + 1) ++ "/" ++ toString n ++ "] ✓ Cached: " ++ rawRef ++ "\n"),
          downloadErrors)

/-- The loop `for i, rawRef := range imageRefs` of `downloadImagesToCache`,
from index `i` on. -/
def downloadLoop (env : Env) (cacheDir : String) (progressWriter : Option String)
    (policyContext : PolicyContext) (n : Nat) :
    Nat → List String → World → List String → World × List String
  | _, [], w, downloadErrors => (w, downloadErrors)
  | i, rawRef :: rest, w, downloadErrors =>
    downloadLoop env cacheDir progressWriter policyContext n (i + 1) rest
      (downloadEntry env cacheDir progressWriter policyContext n i rawRef w downloadErrors).1
      (downloadEntry env cacheDir progressWriter policyContext n i rawRef w downloadErrors).2

/-- The function `downloadImagesToCache` of cache.go. -/
def downloadImagesToCache (env : Env) (w : World) (imageRefs : List String) (cacheDir : String)
    (noProgress : Bool) (policyContext : PolicyContext) : World × Except String Unit :=
  let w0 := w.eprint ("Stage 1: Downloading " ++ toString imageRefs.length
    ++ " images to OCI cache (with layer deduplication)...\n")
  let progressWriter : Option String := if noProgress then none else some "stderr"
  let r := downloadLoop env cacheDir progressWriter policyContext imageRefs.length 0 imageRefs
    w0 []
  let downloadErrors := r.2
  if downloadErrors.length > 0 then
    let w1 := r.1.eprint
      ("\n" ++ toString downloadErrors.length ++ " image(s) failed to download:\n")
    let w2 := downloadErrors.foldl (fun acc err => acc.eprint ("  - " ++ err ++ "\n")) w1
    (w2, .error ("failed to download " ++ toString downloadErrors.length ++ " image(s)"))
  else
    (r.1, .ok ())

/-! ## policy.go -/

/-- The function `createPolicyContext` of policy.go. -/
def createPolicyContext (env : Env) (w : World) : World × Except String PolicyContext :=
  let policy : Policy := { default := [PolicyRequirement.insecureAcceptAnything] }
  match signatureNewPolicyContext env w policy with
  | (w1, .error err) => (w1, .error ("error creating policy context: " ++ err))
  | (w1, .ok policyContext) => (w1, .ok policyContext)

/-! ## third_party/podman/utils_linux.go -/

/-- The function `SetupPipe`: on success the path of the named pipe and the
directory the returned cleanup function removes. The goroutine that drains
the pipe into standard output is represented by its start and by the outcome
it reports on the channel. -/
def SetupPipe (env : Env) (w : World) : World × Except String (String × String) :=
  match osMkdirTemp env w env.tempDir "pipeDir" with
  | (w1, .error err) => (w1, .error err)
  | (w1, .ok pipeDir) =>
    let pipePath := pipeDir ++ "/" ++ "saveio"
    match unixMkfifo env w1 pipePath 0o600 with
    | (w2, .error err) =>
      let w3 := match osRemoveAll env w2 pipeDir with
        | (w3, .error e) => w3.logError ("Removing named pipe: \"" ++ e ++ "\"")
        | (w3, .ok ()) => w3
      (w3, .error ("creating named pipe: " ++ err))
    | (w2, .ok ()) => (w2.emit (Event.startDrain pipePath), .ok (pipePath, pipeDir))

/-- The cleanup function `SetupPipe` returns, followed by the receive from
the channel it hands out. -/
def pipeCleanup (env : Env) (w : World) (pipeDir : String) : World × Option String :=
  let w1 := match osRemoveAll env w pipeDir with
    | (w1, .error e) => w1.logError ("Removing named pipe: \"" ++ e ++ "\"")
    | (w1, .ok ()) => w1
  ((w1.emit Event.recvDrain), env.drainErr w1)

/-! ## archive.go -/

/-- One iteration of the loop of `createArchiveFromCache`, for the entry
`rawRef` at index `i` of `n`. -/
def archiveEntry (env : Env) (cacheDir : String) (policyContext : PolicyContext) (n i : Nat)
    (rawRef : String) (w : World) : World × Except String Unit :=
  let w0 := w.eprint
    ("  [" ++ toString (i + 1) ++ "/" ++ toString n ++ "] Archiving: " ++ rawRef ++ "\n")
  let cacheTag := "img-" ++ toString i
  match layoutNewReference env w0 cacheDir cacheTag with
  | (w1, .error err) => (w1, .error ("failed to create OCI cache reference: " ++ err))
  | (w1, .ok srcRef) =>
    match referenceParseNormalizedNamed env w1 rawRef with
    | (w2, .error err) =>
      (w2, .error ("failed to parse image reference " ++ rawRef ++ ": " ++ err))
    | (w2, .ok named) =>
      let t : World × Except String Named :=
        match named.tag with
        | some _ => (w2, .ok named)
        | none => referenceWithTag env w2 named "latest"
      match t with
      | (w3, .error err) =>
        (w3, .error ("failed to add latest tag to " ++ rawRef ++ ": " ++ err))
      | (w3, .ok tagged) =>
        match writerNewReference env w3 tagged with
        | (w4, .error err) =>
          (w4, .error ("failed to create docker archive reference for " ++ tagged.render
            ++ ": " ++ err))
        | (w4, .ok destRef) =>
          match copyImage env w4 policyContext destRef srcRef { reportWriter := none } with
          | (w5, .error err) =>
            (w5, .error ("failed to archive image " ++ rawRef ++ ": " ++ err))
          | (w5, .ok ()) => (w5, .ok ())

/-- The loop `for i, rawRef := range imageRefs` of `createArchiveFromCache`,
from index `i` on: the first failure returns. -/
def archiveLoop (env : Env) (cacheDir : String) (policyContext : PolicyContext) (n : Nat) :
    Nat → List String → World → World × Except String Unit
  | _, [], w => (w, .ok ())
  | i, rawRef :: rest, w =>
    match archiveEntry env cacheDir policyContext n i rawRef w with
    | (w1, .error err) => (w1, .error err)
    | (w1, .ok ()) => archiveLoop env cacheDir policyContext n (i + 1) rest w1

/-- What `createArchiveFromCache` does once the destination is determined
(archive.go, lines 63 to 122): the writer, the loop, the close. -/
def archiveTo (env : Env) (w : World) (imageRefs : List String) (outputDest cacheDir : String)
    (policyContext : PolicyContext) : World × Except String Unit :=
  match archiveNewWriter env w outputDest with
  | (w1, .error err) => (w1, .error ("failed to create docker archive writer: " ++ err))
  | (w1, .ok ()) =>
    match archiveLoop env cacheDir policyContext imageRefs.length 0 imageRefs w1 with
    | (w2, .error err) => (w2, .error err)
    | (w2, .ok ()) =>
      match writerClose env w2 with
      | (w3, .error err) => (w3, .error ("failed to close archive writer: " ++ err))
      | (w3, .ok ()) => (w3, .ok ())

/-- The block "Determine output destination" of `createArchiveFromCache`
(archive.go, lines 24 to 61): on success the destination path and, when the
archive is streamed, the directory that the deferred cleanup function of
`SetupPipe` removes (`none` for the nil `cleanupFunc`). -/
def outputDestination (env : Env) (w : World) (outputFile : String) (force : Bool) :
    World × Except String (String × Option String) :=
  let writeToStdout := (outputFile == "")
  if writeToStdout then
    match termIsTerminal env w with
    | (w1, true) =>
      (w1, .error ("refusing to write archive to terminal. "
        ++ "Use -o to specify an output file or redirect to a file/pipe"))
    | (w1, false) =>
      match SetupPipe env w1 with
      | (w2, .error err) => (w2, .error ("failed to setup pipe: " ++ err))
      | (w2, .ok (outputDest, pipeDir)) => (w2, .ok (outputDest, some pipeDir))
  else
    let outputDest := outputFile
    match osStat w outputDest with
    | (w1, .ok _) =>
      if !force then
        (w1, .error ("output file " ++ outputDest ++ " already exists. Use -f to overwrite"))
      else
        match osRemove env w1 outputDest with
        | (w2, .error err) =>
          (w2, .error ("failed to remove existing archive file: " ++ err))
        | (w2, .ok ()) => (w2, .ok (outputDest, none))
    | (w1, .error _) => (w1, .ok (outputDest, none))

/-- The function `createArchiveFromCache` of archive.go: the destination, the
archiving, and then the deferred pipe cleanup when one was registered. -/
def createArchiveFromCache (env : Env) (w : World) (imageRefs : List String)
    (outputFile cacheDir : String) (force : Bool) (policyContext : PolicyContext) :
    World × Except String Unit :=
  let w0 := w.eprint "\nStage 2: Creating docker archive from cache...\n"
  match outputDestination env w0 outputFile force with
  | (w1, .error err) => (w1, .error err)
  | (w1, .ok (outputDest, cleanupFunc)) =>
    match archiveTo env w1 imageRefs outputDest cacheDir policyContext with
    | (w2, r) =>
      match cleanupFunc with
      | none => (w2, r)
      | some pipeDir =>
        match pipeCleanup env w2 pipeDir with
        | (w3, some writeErr) => (w3.eprint ("Error writing to pipe: " ++ writeErr ++ "\n"), r)
        | (w3, none) => (w3, r)

/-! ## main.go -/

/-- The stages of `run` between the registration of the deferred cleanup and
its execution. -/
def runStages (env : Env) (w : World) (imageRefs : List String) (outputFile cacheDir : String)
    (noProgress force : Bool) : World × Except String Unit :=
  match createPolicyContext env w with
  | (w1, .error err) => (w1, .error err)
  | (w1, .ok policyContext) =>
    match downloadImagesToCache env w1 imageRefs cacheDir noProgress policyContext with
    | (w2, .error err) => (w2, .error err)
    | (w2, .ok ()) =>
      createArchiveFromCache env w2 imageRefs outputFile cacheDir force policyContext

/-- The deferred function of `run`. -/
def deferredCleanup (env : Env) (w : World) (cacheDir : String) : World :=
  match osRemoveAll env w cacheDir with
  | (w1, .error err) => w1.logError ("Failed to clean up cache directory: " ++ err)
  | (w1, .ok ()) => w1

/-- The function `run` of main.go. -/
def run (env : Env) (w : World) (imageRefs : List String) (outputFile cacheDir : String)
    (noProgress force : Bool) : World × Except String Unit :=
  match setupCacheDir env w cacheDir with
  | (w1, .error err) => (w1, .error err)
  | (w1, .ok ()) =>
    match runStages env w1 imageRefs outputFile cacheDir noProgress force with
    | (w2, r) => (deferredCleanup env w2 cacheDir, r)

/-! ## Vocabulary of the properties -/

/-- Value of a string of decimal digits, most significant digit first,
continuing from `acc`. -/
def decimalValue (cs : List Char) (acc : Nat) : Nat :=
  cs.foldl (fun a c => a * 10 + (c.toNat - 48)) acc

/-- What is at a directory path: the node there, the file-system entries
strictly below it and the image slots it holds. -/
def dirView (w : World) (path : String) :
    Option Node × List (Path × Node) × List ((Path × String) × String) :=
  (lookupNode w.fs (splitPath path),
    w.fs.filter (fun e => inside (splitPath path) e.1 && decide (e.1 ≠ splitPath path)),
    w.slots.filter (fun s => inside (splitPath path) s.1.1))

/-- The directory and tag of the layout references requested in a trace. -/
def layoutCalls (t : List Event) : List (String × String) :=
  t.filterMap (fun e => match e with
    | Event.layoutNewReference d g => some (d, g)
    | _ => none)

/-! ## Sample environments and states -/

/-- Whether the acquisition of the entry `rawRef` at index `i` fails: the
source reference does not parse, the cache reference cannot be made, or the
copy fails. -/
def entryFails (env : Env) (cacheDir : String) (i : Nat) (rawRef : String) : Bool :=
  (env.parseImageNameErr ("docker://" ++ rawRef)).isSome
    || (env.layoutNewReferenceErr cacheDir ("img-" ++ toString i)).isSome
    || (env.copyErr (ImageRef.layout cacheDir ("img-" ++ toString i))
          (ImageRef.docker ("docker://" ++ rawRef))).isSome

/-- The number of entries whose acquisition fails, the first entry of the
list having index `i`. -/
def failedCount (env : Env) (cacheDir : String) : Nat → List String → Nat
  | _, [] => 0
  | i, rawRef :: rest =>
    (if entryFails env cacheDir i rawRef then 1 else 0) + failedCount env cacheDir (i + 1) rest

/-- The error recorded for the entry `rawRef` at index `i` when its
acquisition fails. -/
def entryError (env : Env) (cacheDir : String) (i : Nat) (rawRef : String) : Option String :=
  match env.parseImageNameErr ("docker://" ++ rawRef) with
  | some e => some ("invalid source image reference " ++ rawRef ++ ": " ++ e)
  | none =>
    match env.layoutNewReferenceErr cacheDir ("img-" ++ toString i) with
    | some e => some ("failed to create OCI cache reference: " ++ e)
    | none =>
      match env.copyErr (ImageRef.layout cacheDir ("img-" ++ toString i))
          (ImageRef.docker ("docker://" ++ rawRef)) with
      | some e => some ("failed to cache image " ++ rawRef ++ ": " ++ e)
      | none => none

/-- The errors recorded for the failing entries of a list, in order, the
first entry of the list having index `i`. -/
def recordedErrors (env : Env) (cacheDir : String) : Nat → List String → List String
  | _, [] => []
  | i, rawRef :: rest =>
    (entryError env cacheDir i rawRef).toList ++ recordedErrors env cacheDir (i + 1) rest

/-- The collaborator calls the acquisition of one entry makes. -/
def downloadEntryEvents (env : Env) (cacheDir : String) (i : Nat) (rawRef : String) :
    List Event :=
  Event.parseImageName ("docker://" ++ rawRef) ::
    (if (env.parseImageNameErr ("docker://" ++ rawRef)).isSome then []
      else Event.layoutNewReference cacheDir ("img-" ++ toString i) ::
        (if (env.layoutNewReferenceErr cacheDir ("img-" ++ toString i)).isSome then []
          else [Event.copyImage (ImageRef.layout cacheDir ("img-" ++ toString i))
            (ImageRef.docker ("docker://" ++ rawRef))]))

/-- The collaborator calls the acquisition of a list of entries makes, the
first entry of the list having index `i`. -/
def downloadEvents (env : Env) (cacheDir : String) : Nat → List String → List Event
  | _, [] => []
  | i, rawRef :: rest =>
    downloadEntryEvents env cacheDir i rawRef ++ downloadEvents env cacheDir (i + 1) rest

/-- The source names passed to `alltransports.ParseImageName` in a trace. -/
def parseCalls (t : List Event) : List String :=
  t.filterMap (fun e => match e with
    | Event.parseImageName s => some s
    | _ => none)

/-- The policy context `createPolicyContext` makes. -/
def acceptAnything : PolicyContext :=
  { policy := { default := [PolicyRequirement.insecureAcceptAnything] } }

/-- The reference an entry is archived under: the parsed reference itself
when it carries a tag, with the tag `latest` otherwise. -/
def taggedOf (named : Named) : Named :=
  match named.tag with
  | some _ => named
  | none => { named with tag := some "latest" }

/-- The number of times the archive writer is closed in a trace. -/
def closeCalls (t : List Event) : Nat := t.count Event.writerClose

/-- The paths passed to `os.Remove` and `os.RemoveAll` in a trace. -/
def removals (t : List Event) : List String :=
  t.filterMap (fun e => match e with
    | Event.remove p => some p
    | Event.removeAll p => some p
    | _ => none)

/-- The copies made in a trace, as destination and source. -/
def copyCalls (t : List Event) : List (ImageRef × ImageRef) :=
  t.filterMap (fun e => match e with
    | Event.copyImage d s => some (d, s)
    | _ => none)

/-- The destinations an archive writer is opened on in a trace. -/
def writerCalls (t : List Event) : List String :=
  t.filterMap (fun e => match e with
    | Event.newWriter p => some p
    | _ => none)

/-- The calls of a trace that only the archiving stage makes: the checks of
the destination, the pipe, the writer, the parsing and tagging of references,
and the copies into the archive. -/
def archivingCalls (t : List Event) : List Event :=
  t.filter (fun e => match e with
    | Event.stat _ => true
    | Event.remove _ => true
    | Event.isTerminal => true
    | Event.mkdirTemp _ _ => true
    | Event.mkfifo _ _ => true
    | Event.startDrain _ => true
    | Event.recvDrain => true
    | Event.newWriter _ => true
    | Event.parseNormalizedNamed _ => true
    | Event.withTag _ _ => true
    | Event.writerNewReference _ => true
    | Event.writerClose => true
    | Event.copyImage (ImageRef.archive _) _ => true
    | _ => false)

/-! ## Sample environments and states -/

/-- A sample reference parser: the text before the first colon is the name
(placed under `docker.io/library/`), the text after it the tag. -/
def sampleParse (s : String) : Except String Named :=
  if s = "" then .error "invalid reference format"
  else
    match s.data.span (fun c => c != ':') with
    | (nm, []) =>
      .ok { name := "docker.io/library/" ++ String.mk nm, tag := none, digest := none }
    | (nm, _ :: tg) =>
      .ok { name := "docker.io/library/" ++ String.mk nm, tag := some (String.mk tg),
            digest := none }

/-- An environment in which every collaborator succeeds and standard output
is not a terminal. -/
def envOk : Env :=
  { stdoutIsTerminal := false
    tempDir := "/tmp"
    removeAllErr := fun _ _ => none
    removeAllKeeps := fun _ _ _ => true
    mkdirAllErr := fun _ _ _ => none
    removeErr := fun _ _ => none
    mkdirTempRes := fun _ d _ => .ok (d ++ "/pipeDir1")
    mkfifoErr := fun _ _ _ => none
    drainErr := fun _ => none
    newPolicyContextErr := fun _ => none
    parseImageNameErr := fun _ => none
    layoutNewReferenceErr := fun _ _ => none
    copyErr := fun _ _ => none
    newWriterErr := fun _ _ => none
    parseNormalizedNamedRes := sampleParse
    withTagErr := fun _ _ => none
    writerNewReferenceErr := fun _ => none
    writerCloseErr := fun _ => none }

/-- The empty state. -/
def world0 : World :=
  { fs := [], slots := [], archive := [], sealed := false, trace := [], stderr := [], log := [] }

/-- A state in which `/tmp/cache` is a cache directory left over by an
earlier run. -/
def worldLeftover : World :=
  { world0 with
    fs := [(["tmp"], Node.dir 0o755), (["tmp", "cache"], Node.dir 0o700),
      (["tmp", "cache", "index.json"], Node.file "stale"),
      (["tmp", "cache", "blobs"], Node.dir 0o755)]
    slots := [((["tmp", "cache"], "img-0"), "docker://stale:1")] }

/-- An environment in which every collaborator succeeds except the copy into
the cache slot `img-1` of `/tmp/cache`, whose image cannot be reached. -/
def envSecondUnreachable : Env :=
  { envOk with
    copyErr := fun dest _ =>
      if dest = ImageRef.layout "/tmp/cache" "img-1" then some "manifest unknown" else none }

/-- A state in which `/tmp/cache` holds the cached images of three entries. -/
def worldCached : World :=
  { world0 with
    fs := [(["tmp"], Node.dir 0o755), (["tmp", "cache"], Node.dir 0o750)]
    slots := [((["tmp", "cache"], "img-2"), "docker://redis:7"),
      ((["tmp", "cache"], "img-1"), "docker://busybox"),
      ((["tmp", "cache"], "img-0"), "docker://alpine:3.19")] }

/-- An environment in which every collaborator succeeds except the copy out
of the cache slot `img-1` of `/tmp/cache`. -/
def envSecondUnreadable : Env :=
  { envOk with
    copyErr := fun _ src =>
      if src = ImageRef.layout "/tmp/cache" "img-1" then some "blob unknown" else none }

/-- The line printed at the start of the archiving stage. -/
def stage2Line : String := "\nStage 2: Creating docker archive from cache...\n"

/-- A state in which `/tmp/cache` holds the cached images of the list
`["alpine:3.19", "alpine:3.19"]`. -/
def worldTwoAlpine : World :=
  { world0 with
    fs := [(["tmp"], Node.dir 0o755), (["tmp", "cache"], Node.dir 0o750)]
    slots := [((["tmp", "cache"], "img-1"), "docker://alpine:3.19"),
      ((["tmp", "cache"], "img-0"), "docker://alpine:3.19")] }

/-- A state like `worldCached` in which the output file `/out.tar` exists. -/
def worldExisting : World :=
  { worldCached with fs := worldCached.fs ++ [(["out.tar"], Node.file "old archive")] }

/-- An environment in which nothing can be removed: `os.RemoveAll` fails with
a permission error and removes nothing. -/
def envCleanFails : Env :=
  { envOk with
    removeAllErr := fun _ _ => some "permission denied"
    removeAllKeeps := fun _ _ _ => true }

/-- An environment in which every collaborator succeeds and standard output
is an interactive terminal. -/
def envTerminal : Env := { envOk with stdoutIsTerminal := true }

/-- An environment in which no source reference parses. -/
def envParseFails : Env :=
  { envOk with parseImageNameErr := fun _ => some "invalid reference format" }

/-- An environment in which no cache reference can be made. -/
def envLayoutFails : Env :=
  { envOk with layoutNewReferenceErr := fun _ _ => some "invalid image reference" }

/-! ## Decimal rendering and the cache tag -/

theorem digitChar_value (k : Nat) (h : k < 10) : (Nat.digitChar k).toNat - 48 = k := by
  interval_cases k <;> rfl

theorem decimalValue_toDigitsCore (fuel : Nat) :
    ∀ (n : Nat) (ds : List Char), n < fuel →
      decimalValue (Nat.toDigitsCore 10 fuel n ds) 0 = decimalValue ds n := by
  induction fuel with
  | zero => intro n ds h; omega
  | succ f ih =>
    intro n ds h
    simp only [Nat.toDigitsCore]
    by_cases h0 : n / 10 = 0
    · simp only [h0, if_true]
      have hn : n < 10 := by omega
      simp [decimalValue, Nat.mod_eq_of_lt hn, digitChar_value n hn]
    · simp only [h0, if_false]
      rw [ih (n / 10) _ (by omega)]
      simp only [decimalValue, List.foldl_cons, digitChar_value (n % 10) (Nat.mod_lt _ (by decide))]
      congr 1
      omega

theorem repr_injective (a b : Nat) (h : Nat.repr a = Nat.repr b) : a = b := by
  have h1 : Nat.toDigits 10 a = Nat.toDigits 10 b := by
    have := congrArg String.data h
    simpa [Nat.repr, List.asString] using this
  have ha := decimalValue_toDigitsCore (a + 1) a [] (by omega)
  have hb := decimalValue_toDigitsCore (b + 1) b [] (by omega)
  simp only [Nat.toDigits] at h1
  rw [h1] at ha
  rw [ha] at hb
  simpa [decimalValue] using hb

theorem cacheTag_injective (i j : Nat) (h : "img-" ++ toString i = "img-" ++ toString j) :
    i = j := by
  apply repr_injective
  have h1 := congrArg String.data h
  simp only [String.data_append] at h1
  have h2 := List.append_cancel_left h1
  exact String.ext h2

/-! ## Paths and the file system -/

theorem inside_self (p : Path) : inside p p = true := by
  simp [inside, List.isPrefixOf_iff_prefix]

theorem mem_ancestors_self : ∀ (p : Path), p ≠ [] → p ∈ ancestors p
  | [], h => absurd rfl h
  | [c], _ => by simp [ancestors]
  | c :: d :: cs, _ => by
    have ih := mem_ancestors_self (d :: cs) (by simp)
    rw [ancestors]
    exact List.mem_cons_of_mem _ (List.mem_map_of_mem _ ih)

theorem ancestors_prefix : ∀ (p q : Path), q ∈ ancestors p → q <+: p
  | [], q, h => by simp [ancestors] at h
  | c :: cs, q, h => by
    simp only [ancestors, List.mem_cons, List.mem_map] at h
    rcases h with h | ⟨r, hr, rfl⟩
    · subst h; simp [List.prefix_cons_inj, List.nil_prefix]
    · have := ancestors_prefix cs r hr
      simpa [List.prefix_cons_inj] using this

theorem inside_ancestor_eq (p q : Path) (hq : q ∈ ancestors p) (hin : inside p q = true) :
    q = p := by
  have h1 := ancestors_prefix p q hq
  have h2 : p <+: q := by simpa [inside, List.isPrefixOf_iff_prefix] using hin
  exact List.IsPrefix.eq_of_length h1 (Nat.le_antisymm h1.length_le h2.length_le)

theorem lookupNode_eq_none_of_forall (fs : List (Path × Node)) (p : Path)
    (h : ∀ e ∈ fs, e.1 ≠ p) : lookupNode fs p = none := by
  have : fs.find? (fun e => e.1 = p) = none := by
    rw [List.find?_eq_none]
    intro e he
    simpa using h e he
  simp [lookupNode, this]

theorem lookupNode_append (a b : List (Path × Node)) (p : Path) :
    lookupNode (a ++ b) p = (lookupNode a p).or (lookupNode b p) := by
  induction a with
  | nil => simp [lookupNode]
  | cons x xs ih =>
    by_cases hx : x.1 = p
    · simp [lookupNode, List.find?_cons, hx]
    · simpa [lookupNode, List.find?_cons, hx] using ih

theorem lookupNode_map_const (l : List Path) (n : Node) (p : Path) :
    lookupNode (l.map (fun q => (q, n))) p = if p ∈ l then some n else none := by
  induction l with
  | nil => simp [lookupNode]
  | cons x xs ih =>
    by_cases hx : x = p
    · simp [lookupNode, List.find?_cons, hx]
    · have hx2 : ¬ p = x := fun h => hx h.symm
      simpa [lookupNode, List.find?_cons, hx, hx2] using ih

theorem osRemoveAll_trace (env : Env) (w : World) (path : String) :
    (osRemoveAll env w path).1.trace = w.trace ++ [Event.removeAll path] := by
  unfold osRemoveAll
  by_cases hp : path = ""
  · simp [hp, World.emit]
  · simp only [hp, if_false]
    split <;> simp [World.emit]

theorem osRemoveAll_ok (env : Env) (w : World) (path : String)
    (h : (osRemoveAll env w path).2 = .ok ()) (hp : path ≠ "") :
    splitPath path ≠ [] ∧
    (osRemoveAll env w path).1.fs = w.fs.filter (fun n => !(inside (splitPath path) n.1)) ∧
    (osRemoveAll env w path).1.slots
      = w.slots.filter (fun s => !(inside (splitPath path) s.1.1)) := by
  unfold osRemoveAll at h ⊢
  simp only [hp, if_false] at h ⊢
  by_cases hs : splitPath path = []
  · simp [hs] at h
  · simp only [hs, if_false] at h ⊢
    cases hr : env.removeAllErr w path with
    | some e => simp [hr] at h
    | none => exact ⟨hs, by simp [World.emit], by simp [World.emit]⟩

theorem osMkdirAll_trace (env : Env) (w : World) (path : String) (perm : Nat) :
    (osMkdirAll env w path perm).1.trace = w.trace ++ [Event.mkdirAll path perm] := by
  unfold osMkdirAll
  repeat (first | split | simp [World.emit])

theorem osMkdirAll_slots (env : Env) (w : World) (path : String) (perm : Nat) :
    (osMkdirAll env w path perm).1.slots = w.slots := by
  unfold osMkdirAll
  repeat (first | split | simp [World.emit])

theorem osMkdirAll_ok_absent (env : Env) (w : World) (path : String) (perm : Nat)
    (h : (osMkdirAll env w path perm).2 = .ok ()) (hs : splitPath path ≠ [])
    (habs : lookupNode w.fs (splitPath path) = none) :
    (osMkdirAll env w path perm).1.fs
      = w.fs ++ ((ancestors (splitPath path)).filter
          (fun q => (lookupNode w.fs q).isNone)).map (fun q => (q, Node.dir perm)) := by
  unfold osMkdirAll at h ⊢
  simp only [hs, if_false] at h ⊢
  cases hm : env.mkdirAllErr w path perm with
  | some e => simp [hm] at h
  | none =>
    simp only [hm, World.emit, habs] at h ⊢
    split at h
    · simp at h
    · rename_i hany
      simp [hany]

theorem osMkdirAll_empty (env : Env) (w : World) (perm : Nat) :
    (osMkdirAll env w "" perm).2 = .error "mkdir : no such file or directory" := by
  simp [osMkdirAll, splitPath, splitAux]

/-! ## setupCacheDir -/

theorem setupCacheDir_ok_iff (env : Env) (w : World) (path : String) :
    (setupCacheDir env w path).2 = .ok () ↔
      (osRemoveAll env w path).2 = .ok () ∧
      (osMkdirAll env (osRemoveAll env w path).1 path 0o750).2 = .ok () := by
  unfold setupCacheDir
  rcases hr : osRemoveAll env w path with ⟨w1, e | u⟩
  · simp
  · rcases hm : osMkdirAll env w1 path 0o750 with ⟨w2, e | u⟩ <;> simp [hm]

theorem setupCacheDir_ok_world (env : Env) (w : World) (path : String)
    (h : (setupCacheDir env w path).2 = .ok ()) :
    (setupCacheDir env w path).1 = (osMkdirAll env (osRemoveAll env w path).1 path 0o750).1 := by
  unfold setupCacheDir at h ⊢
  rcases hr : osRemoveAll env w path with ⟨w1, e | u⟩
  · simp [hr] at h
  · rcases hm : osMkdirAll env w1 path 0o750 with ⟨w2, e | u⟩ <;> simp [hm]

theorem setupCacheDir_ok_path (env : Env) (w : World) (path : String)
    (h : (setupCacheDir env w path).2 = .ok ()) : path ≠ "" ∧ splitPath path ≠ [] := by
  obtain ⟨h1, h2⟩ := (setupCacheDir_ok_iff env w path).1 h
  have hp : path ≠ "" := by
    intro hp
    subst hp
    rw [osMkdirAll_empty] at h2
    cases h2
  exact ⟨hp, (osRemoveAll_ok env w path h1 hp).1⟩

theorem setupCacheDir_ok_view (env : Env) (w : World) (path : String)
    (h : (setupCacheDir env w path).2 = .ok ()) :
    dirView (setupCacheDir env w path).1 path = (some (Node.dir 0o750), [], []) ∧
    (setupCacheDir env w path).1.trace
      = w.trace ++ [Event.removeAll path, Event.mkdirAll path 0o750] := by
  rw [setupCacheDir_ok_world env w path h]
  obtain ⟨h1, h2⟩ := (setupCacheDir_ok_iff env w path).1 h
  obtain ⟨hp, -⟩ := setupCacheDir_ok_path env w path h
  obtain ⟨hs, hfs, hsl⟩ := osRemoveAll_ok env w path h1 hp
  have hnone : ∀ e ∈ (osRemoveAll env w path).1.fs, inside (splitPath path) e.1 = false := by
    intro e he
    rw [hfs, List.mem_filter] at he
    simpa using he.2
  have habs : lookupNode (osRemoveAll env w path).1.fs (splitPath path) = none := by
    apply lookupNode_eq_none_of_forall
    intro e he heq
    have := hnone e he
    rw [heq, inside_self] at this
    cases this
  have hfs2 := osMkdirAll_ok_absent env _ path 0o750 h2 hs habs
  refine ⟨?_, ?_⟩
  · unfold dirView
    rw [osMkdirAll_slots, hfs2, hsl, lookupNode_append, habs, lookupNode_map_const]
    have hmem : splitPath path ∈ (ancestors (splitPath path)).filter
        (fun q => (lookupNode (osRemoveAll env w path).1.fs q).isNone) := by
      rw [List.mem_filter]
      exact ⟨mem_ancestors_self _ hs, by simp [habs]⟩
    have hf1 : List.filter (fun e => inside (splitPath path) e.1 && decide (e.1 ≠ splitPath path))
        ((osRemoveAll env w path).1.fs ++ ((ancestors (splitPath path)).filter
          (fun q => (lookupNode (osRemoveAll env w path).1.fs q).isNone)).map
            (fun q => (q, Node.dir 0o750))) = [] := by
      rw [List.filter_eq_nil_iff]
      intro e he
      rw [List.mem_append] at he
      rcases he with he | he
      · simp [hnone e he]
      · rw [List.mem_map] at he
        obtain ⟨q, hq, rfl⟩ := he
        rw [List.mem_filter] at hq
        by_cases hin : inside (splitPath path) q = true
        · have := inside_ancestor_eq _ _ hq.1 hin
          simp [this]
        · simp [hin]
    have hf2 : List.filter (fun s => inside (splitPath path) s.1.1)
        (List.filter (fun s => !(inside (splitPath path) s.1.1)) w.slots) = [] := by
      rw [List.filter_eq_nil_iff]
      intro s hs2
      rw [List.mem_filter] at hs2
      simpa using hs2.2
    simp only [hmem, if_true, hf1, hf2, Option.or]
  · rw [osMkdirAll_trace, osRemoveAll_trace]
    simp

/-- C9: `setupCacheDir` wipes the path before creating it. It succeeds exactly
when the removal and the creation both succeed, and reports the failure of
either as its error (after a failed removal nothing is created); when it
succeeds the path is a directory made with mode 0750 that has nothing below
it and holds no image, the removal having been called before the creation;
and whatever the prior states, two successful calls leave the same fresh
empty directory at the path. -/
theorem setupCacheDir_wipes_then_creates (env env' : Env) (w w' : World) (path : String) :
    ((setupCacheDir env w path).2 = .ok () ↔
      (osRemoveAll env w path).2 = .ok () ∧
        (osMkdirAll env (osRemoveAll env w path).1 path 0o750).2 = .ok ()) ∧
    (∀ e, (osRemoveAll env w path).2 = .error e →
      (setupCacheDir env w path).2 = .error ("failed to clean cache directory: " ++ e) ∧
      (setupCacheDir env w path).1.trace = w.trace ++ [Event.removeAll path]) ∧
    (∀ e, (osRemoveAll env w path).2 = .ok () →
      (osMkdirAll env (osRemoveAll env w path).1 path 0o750).2 = .error e →
      (setupCacheDir env w path).2 = .error ("failed to create cache directory: " ++ e)) ∧
    ((setupCacheDir env w path).2 = .ok () →
      dirView (setupCacheDir env w path).1 path = (some (Node.dir 0o750), [], []) ∧
      (setupCacheDir env w path).1.trace
        = w.trace ++ [Event.removeAll path, Event.mkdirAll path 0o750]) ∧
    ((setupCacheDir env w path).2 = .ok () → (setupCacheDir env' w' path).2 = .ok () →
      dirView (setupCacheDir env w path).1 path
        = dirView (setupCacheDir env' w' path).1 path) := by
  refine ⟨setupCacheDir_ok_iff env w path, ?_, ?_, setupCacheDir_ok_view env w path, ?_⟩
  · intro e he
    have ht := osRemoveAll_trace env w path
    unfold setupCacheDir
    rcases hr : osRemoveAll env w path with ⟨w1, e1 | u⟩
    · rw [hr] at he ht
      simp only at he ht
      cases he
      exact ⟨rfl, ht⟩
    · rw [hr] at he
      cases he
  · intro e h1 h2
    unfold setupCacheDir
    rcases hr : osRemoveAll env w path with ⟨w1, e1 | u⟩
    · rw [hr] at h1
      cases h1
    · rw [hr] at h2
      simp only at h2
      rcases hm : osMkdirAll env w1 path 0o750 with ⟨w2, e2 | u2⟩
      · rw [hm] at h2
        cases h2
        simp [hm]
      · rw [hm] at h2
        cases h2
  · intro h h'
    rw [(setupCacheDir_ok_view env w path h).1, (setupCacheDir_ok_view env' w' path h').1]

/-- Witness of C9: a leftover cache directory with contents and an absent
path both end as the same fresh empty directory. -/
theorem setupCacheDir_wipes_then_creates_witness :
    (setupCacheDir envOk worldLeftover "/tmp/cache").2 = .ok () ∧
    (setupCacheDir envOk world0 "/tmp/cache").2 = .ok () ∧
    dirView worldLeftover "/tmp/cache"
      = (some (Node.dir 0o700),
          [(["tmp", "cache", "index.json"], Node.file "stale"),
            (["tmp", "cache", "blobs"], Node.dir 0o755)],
          [((["tmp", "cache"], "img-0"), "docker://stale:1")]) ∧
    dirView (setupCacheDir envOk worldLeftover "/tmp/cache").1 "/tmp/cache"
      = (some (Node.dir 0o750), [], []) ∧
    dirView (setupCacheDir envOk worldLeftover "/tmp/cache").1 "/tmp/cache"
      = dirView (setupCacheDir envOk world0 "/tmp/cache").1 "/tmp/cache" :=
  ⟨rfl, rfl, by decide,
    ((setupCacheDir_wipes_then_creates envOk envOk worldLeftover world0 "/tmp/cache").2.2.2.1
      rfl).1,
    (setupCacheDir_wipes_then_creates envOk envOk worldLeftover world0 "/tmp/cache").2.2.2.2
      rfl rfl⟩

/-! ## downloadImagesToCache -/

theorem downloadEntry_spec (env : Env) (cacheDir : String) (pw : Option String)
    (pc : PolicyContext) (n i : Nat) (rawRef : String) (w : World) (errs : List String) :
    (downloadEntry env cacheDir pw pc n i rawRef w errs).1.trace
      = w.trace ++ downloadEntryEvents env cacheDir i rawRef ∧
    (downloadEntry env cacheDir pw pc n i rawRef w errs).2
      = errs ++ (entryError env cacheDir i rawRef).toList ∧
    (downloadEntry env cacheDir pw pc n i rawRef w errs).1.slots
      = (if entryFails env cacheDir i rawRef then w.slots
          else putSlot w.slots (splitPath cacheDir, "img-" ++ toString i) ("docker://" ++ rawRef)) ∧
    (downloadEntry env cacheDir pw pc n i rawRef w errs).1.fs = w.fs ∧
    (downloadEntry env cacheDir pw pc n i rawRef w errs).1.archive = w.archive ∧
    (downloadEntry env cacheDir pw pc n i rawRef w errs).1.sealed = w.sealed ∧
    (downloadEntry env cacheDir pw pc n i rawRef w errs).1.log = w.log := by
  cases hP : env.parseImageNameErr ("docker://" ++ rawRef) with
  | some e =>
    simp [downloadEntry, alltransportsParseImageName, downloadEntryEvents, entryError,
      entryFails, World.emit, World.eprint, hP]
  | none =>
    cases hL : env.layoutNewReferenceErr cacheDir ("img-" ++ toString i) with
    | some e =>
      simp [downloadEntry, alltransportsParseImageName, layoutNewReference, downloadEntryEvents,
        entryError, entryFails, World.emit, World.eprint, hP, hL]
    | none =>
      cases hC : env.copyErr (ImageRef.layout cacheDir ("img-" ++ toString i))
          (ImageRef.docker ("docker://" ++ rawRef)) with
      | some e =>
        simp [downloadEntry, alltransportsParseImageName, layoutNewReference, copyImage,
          downloadEntryEvents, entryError, entryFails, World.emit, World.eprint, hP, hL, hC]
      | none =>
        simp [downloadEntry, alltransportsParseImageName, layoutNewReference, copyImage,
          readImage, putSlot, downloadEntryEvents, entryError, entryFails, World.emit,
          World.eprint, hP, hL, hC]

theorem downloadLoop_spec (env : Env) (cacheDir : String) (pw : Option String)
    (pc : PolicyContext) (n : Nat) :
    ∀ (l : List String) (i : Nat) (w : World) (errs : List String),
      (downloadLoop env cacheDir pw pc n i l w errs).1.trace
        = w.trace ++ downloadEvents env cacheDir i l ∧
      (downloadLoop env cacheDir pw pc n i l w errs).2
        = errs ++ recordedErrors env cacheDir i l ∧
      (downloadLoop env cacheDir pw pc n i l w errs).1.fs = w.fs ∧
      (downloadLoop env cacheDir pw pc n i l w errs).1.archive = w.archive ∧
      (downloadLoop env cacheDir pw pc n i l w errs).1.sealed = w.sealed ∧
      (downloadLoop env cacheDir pw pc n i l w errs).1.log = w.log := by
  intro l
  induction l with
  | nil => intro i w errs; simp [downloadLoop, downloadEvents, recordedErrors]
  | cons r rest ih =>
    intro i w errs
    obtain ⟨h1, h2, -, h4, h5, h6, h7⟩ := downloadEntry_spec env cacheDir pw pc n i r w errs
    obtain ⟨k1, k2, k4, k5, k6, k7⟩ := ih (i + 1)
      (downloadEntry env cacheDir pw pc n i r w errs).1
      (downloadEntry env cacheDir pw pc n i r w errs).2
    simp only [downloadLoop, downloadEvents, recordedErrors]
    rw [k1, k2, k4, k5, k6, k7, h1, h2, h4, h5, h6, h7]
    simp [List.append_assoc]

theorem find_filter_ne {α β : Type} [DecidableEq α] (l : List (α × β)) (k k' : α)
    (h : k' ≠ k) :
    (l.filter (fun s => decide (s.1 ≠ k))).find? (fun s => s.1 = k') = l.find? (fun s => s.1 = k') := by
  rw [List.find?_filter]
  congr 1
  funext s
  by_cases h1 : s.1 = k'
  · simp [h1, h]
  · simp [h1]

theorem readImage_putSlot_ne (w w1 : World) (slots : List ((Path × String) × String))
    (p : Path) (dir tag tag' img : String) (hp : splitPath dir = p) (hne : tag' ≠ tag)
    (hw : w.slots = putSlot slots (p, tag) img) (hw1 : w1.slots = slots) :
    readImage w (ImageRef.layout dir tag') = readImage w1 (ImageRef.layout dir tag') := by
  have hk : (p, tag') ≠ (p, tag) := by
    intro h
    exact hne (Prod.mk.inj h).2
  have hk2 : ¬ (p, tag) = (p, tag') := fun h => hk h.symm
  have := find_filter_ne slots (p, tag) (p, tag') hk
  simp only [readImage, hw, hw1, hp, putSlot, List.find?_cons, hk2, decide_False]
  rw [this]

theorem readImage_putSlot_eq (w : World) (slots : List ((Path × String) × String))
    (dir tag img : String) (hw : w.slots = putSlot slots (splitPath dir, tag) img) :
    readImage w (ImageRef.layout dir tag) = some img := by
  simp [readImage, hw, putSlot]

theorem downloadEntry_keeps_slot (env : Env) (cacheDir : String) (pw : Option String)
    (pc : PolicyContext) (n i j : Nat) (rawRef : String) (w : World) (errs : List String)
    (hj : j ≠ i) :
    readImage (downloadEntry env cacheDir pw pc n i rawRef w errs).1
        (ImageRef.layout cacheDir ("img-" ++ toString j))
      = readImage w (ImageRef.layout cacheDir ("img-" ++ toString j)) := by
  have hs := (downloadEntry_spec env cacheDir pw pc n i rawRef w errs).2.2.1
  by_cases hf : entryFails env cacheDir i rawRef = true
  · rw [if_pos hf] at hs
    simp only [readImage, hs]
  · rw [if_neg hf] at hs
    exact readImage_putSlot_ne _ w w.slots (splitPath cacheDir) cacheDir _ _ _ rfl
      (fun h => hj (cacheTag_injective j i h)) hs rfl

theorem downloadLoop_keeps_slot (env : Env) (cacheDir : String) (pw : Option String)
    (pc : PolicyContext) (n : Nat) :
    ∀ (l : List String) (i : Nat) (w : World) (errs : List String) (j : Nat), j < i →
      readImage (downloadLoop env cacheDir pw pc n i l w errs).1
          (ImageRef.layout cacheDir ("img-" ++ toString j))
        = readImage w (ImageRef.layout cacheDir ("img-" ++ toString j)) := by
  intro l
  induction l with
  | nil => intro i w errs j _; rfl
  | cons r rest ih =>
    intro i w errs j hj
    simp only [downloadLoop]
    rw [ih (i + 1) _ _ j (by omega)]
    exact downloadEntry_keeps_slot env cacheDir pw pc n i j r w errs (by omega)

theorem downloadLoop_slot (env : Env) (cacheDir : String) (pw : Option String)
    (pc : PolicyContext) (n : Nat) :
    ∀ (l : List String) (i : Nat) (w : World) (errs : List String) (k : Nat) (rawRef : String),
      l[k]? = some rawRef → entryFails env cacheDir (i + k) rawRef = false →
      readImage (downloadLoop env cacheDir pw pc n i l w errs).1
          (ImageRef.layout cacheDir ("img-" ++ toString (i + k)))
        = some ("docker://" ++ rawRef) := by
  intro l
  induction l with
  | nil => intro i w errs k rawRef h; simp at h
  | cons r rest ih =>
    intro i w errs k rawRef hk hf
    simp only [downloadLoop]
    cases k with
    | zero =>
      simp only [List.getElem?_cons_zero, Option.some.injEq] at hk
      subst hk
      simp only [Nat.add_zero] at hf ⊢
      rw [downloadLoop_keeps_slot env cacheDir pw pc n rest (i + 1) _ _ i (by omega)]
      have hs := (downloadEntry_spec env cacheDir pw pc n i r w errs).2.2.1
      rw [hf] at hs
      exact readImage_putSlot_eq _ w.slots cacheDir _ _ (by simpa using hs)
    | succ k =>
      simp only [List.getElem?_cons_succ] at hk
      have he : i + (k + 1) = i + 1 + k := by omega
      rw [he] at hf ⊢
      exact ih (i + 1) _ _ k rawRef hk hf

theorem entryError_isSome (env : Env) (cacheDir : String) (i : Nat) (rawRef : String) :
    (entryError env cacheDir i rawRef).isSome = entryFails env cacheDir i rawRef := by
  unfold entryError entryFails
  cases env.parseImageNameErr ("docker://" ++ rawRef) <;>
    cases env.layoutNewReferenceErr cacheDir ("img-" ++ toString i) <;>
    cases env.copyErr (ImageRef.layout cacheDir ("img-" ++ toString i))
      (ImageRef.docker ("docker://" ++ rawRef)) <;> rfl

theorem recordedErrors_length (env : Env) (cacheDir : String) :
    ∀ (l : List String) (i : Nat),
      (recordedErrors env cacheDir i l).length = failedCount env cacheDir i l := by
  intro l
  induction l with
  | nil => intro i; rfl
  | cons r rest ih =>
    intro i
    simp only [recordedErrors, failedCount, List.length_append, ih, ← entryError_isSome]
    cases entryError env cacheDir i r <;> simp

theorem parseCalls_append (a b : List Event) :
    parseCalls (a ++ b) = parseCalls a ++ parseCalls b := by
  simp [parseCalls]

theorem parseCalls_downloadEvents (env : Env) (cacheDir : String) :
    ∀ (l : List String) (i : Nat),
      parseCalls (downloadEvents env cacheDir i l) = l.map (fun r => "docker://" ++ r) := by
  intro l
  induction l with
  | nil => intro i; rfl
  | cons r rest ih =>
    intro i
    rw [downloadEvents, parseCalls_append, ih]
    simp only [downloadEntryEvents, parseCalls, List.map_cons]
    split_ifs <;> simp

theorem copy_mem_downloadEvents (env : Env) (cacheDir : String) :
    ∀ (l : List String) (i k : Nat) (rawRef : String),
      l[k]? = some rawRef → entryFails env cacheDir (i + k) rawRef = false →
      Event.copyImage (ImageRef.layout cacheDir ("img-" ++ toString (i + k)))
        (ImageRef.docker ("docker://" ++ rawRef)) ∈ downloadEvents env cacheDir i l := by
  intro l
  induction l with
  | nil => intro i k rawRef h; simp at h
  | cons r rest ih =>
    intro i k rawRef hk hf
    rw [downloadEvents, List.mem_append]
    cases k with
    | zero =>
      simp only [List.getElem?_cons_zero, Option.some.injEq] at hk
      subst hk
      left
      simp only [Nat.add_zero] at hf ⊢
      simp only [entryFails, Bool.or_eq_false_iff] at hf
      simp [downloadEntryEvents, hf.1.1, hf.1.2]
    | succ k =>
      simp only [List.getElem?_cons_succ] at hk
      right
      have he : i + (k + 1) = i + 1 + k := by omega
      rw [he] at hf ⊢
      exact ih (i + 1) k rawRef hk hf

theorem foldl_eprint (f : String → String) :
    ∀ (l : List String) (w : World),
      (l.foldl (fun acc err => acc.eprint (f err)) w)
        = { w with stderr := w.stderr ++ l.map f } := by
  intro l
  induction l with
  | nil => intro w; simp
  | cons x xs ih =>
    intro w
    rw [List.foldl_cons, ih]
    simp [World.eprint]

theorem downloadImagesToCache_spec (env : Env) (w : World) (imageRefs : List String)
    (cacheDir : String) (noProgress : Bool) (pc : PolicyContext) :
    (downloadImagesToCache env w imageRefs cacheDir noProgress pc).1.trace
      = w.trace ++ downloadEvents env cacheDir 0 imageRefs ∧
    (downloadImagesToCache env w imageRefs cacheDir noProgress pc).1.fs = w.fs ∧
    (downloadImagesToCache env w imageRefs cacheDir noProgress pc).1.archive = w.archive ∧
    (downloadImagesToCache env w imageRefs cacheDir noProgress pc).1.sealed = w.sealed ∧
    (downloadImagesToCache env w imageRefs cacheDir noProgress pc).1.log = w.log ∧
    (downloadImagesToCache env w imageRefs cacheDir noProgress pc).1.slots
      = (downloadLoop env cacheDir (if noProgress then none else some "stderr") pc
          imageRefs.length 0 imageRefs (w.eprint ("Stage 1: Downloading "
            ++ toString imageRefs.length
            ++ " images to OCI cache (with layer deduplication)...\n")) []).1.slots ∧
    (downloadImagesToCache env w imageRefs cacheDir noProgress pc).2
      = (if failedCount env cacheDir 0 imageRefs = 0 then .ok ()
          else .error ("failed to download " ++ toString (failedCount env cacheDir 0 imageRefs)
            ++ " image(s)")) := by
  obtain ⟨h1, h2, h3, h4, h5, h6⟩ := downloadLoop_spec env cacheDir
    (if noProgress then none else some "stderr") pc imageRefs.length imageRefs 0
    (w.eprint ("Stage 1: Downloading " ++ toString imageRefs.length
      ++ " images to OCI cache (with layer deduplication)...\n")) []
  have hlen := recordedErrors_length env cacheDir imageRefs 0
  simp only [List.nil_append] at h2
  unfold downloadImagesToCache
  simp only [h2, hlen]
  by_cases hz : failedCount env cacheDir 0 imageRefs = 0
  · simp only [hz, gt_iff_lt, lt_self_iff_false, if_false, if_true]
    and_intros <;> trivial
  · have hpos : failedCount env cacheDir 0 imageRefs > 0 := by omega
    simp only [if_pos hpos, if_neg hz, foldl_eprint]
    and_intros <;> trivial

/-- C1: `downloadImagesToCache` attempts every entry in input order whatever
the outcomes of the steps (the sources it parses are exactly the N inputs, in
order, also when it returns an error); every entry whose three steps succeed
is copied into the cache slot `img-<i>`, which holds its image at the end; and
the stage returns an error exactly when the number K of failed entries is at
least 1, the error reporting the count K. -/
theorem downloadImagesToCache_attempts_every_entry (env : Env) (w : World)
    (imageRefs : List String) (cacheDir : String) (noProgress : Bool) (pc : PolicyContext) :
    parseCalls (downloadImagesToCache env w imageRefs cacheDir noProgress pc).1.trace
      = parseCalls w.trace ++ imageRefs.map (fun r => "docker://" ++ r) ∧
    (downloadImagesToCache env w imageRefs cacheDir noProgress pc).1.trace
      = w.trace ++ downloadEvents env cacheDir 0 imageRefs ∧
    (∀ (i : Nat) (rawRef : String), imageRefs[i]? = some rawRef →
      entryFails env cacheDir i rawRef = false →
      Event.copyImage (ImageRef.layout cacheDir ("img-" ++ toString i))
          (ImageRef.docker ("docker://" ++ rawRef))
        ∈ (downloadImagesToCache env w imageRefs cacheDir noProgress pc).1.trace ∧
      readImage (downloadImagesToCache env w imageRefs cacheDir noProgress pc).1
          (ImageRef.layout cacheDir ("img-" ++ toString i))
        = some ("docker://" ++ rawRef)) ∧
    ((∃ e, (downloadImagesToCache env w imageRefs cacheDir noProgress pc).2 = .error e)
      ↔ 1 ≤ failedCount env cacheDir 0 imageRefs) ∧
    (1 ≤ failedCount env cacheDir 0 imageRefs →
      (downloadImagesToCache env w imageRefs cacheDir noProgress pc).2
        = .error ("failed to download " ++ toString (failedCount env cacheDir 0 imageRefs)
            ++ " image(s)")) := by
  obtain ⟨h1, -, -, -, -, h6, h7⟩ :=
    downloadImagesToCache_spec env w imageRefs cacheDir noProgress pc
  refine ⟨?_, h1, ?_, ?_, ?_⟩
  · rw [h1, parseCalls_append, parseCalls_downloadEvents]
  · intro i rawRef hi hf
    refine ⟨?_, ?_⟩
    · rw [h1, List.mem_append]
      right
      have := copy_mem_downloadEvents env cacheDir imageRefs 0 i rawRef hi
        (by simpa using hf)
      simpa using this
    · have := downloadLoop_slot env cacheDir (if noProgress then none else some "stderr") pc
        imageRefs.length imageRefs 0 (w.eprint ("Stage 1: Downloading "
          ++ toString imageRefs.length
          ++ " images to OCI cache (with layer deduplication)...\n")) [] i rawRef hi
        (by simpa using hf)
      simp only [Nat.zero_add] at this
      simpa only [readImage, h6] using this
  · rw [h7]
    by_cases hz : failedCount env cacheDir 0 imageRefs = 0
    · simp [hz]
    · have : 1 ≤ failedCount env cacheDir 0 imageRefs := by omega
      simp [hz, this]
  · intro hk
    rw [h7, if_neg (by omega)]

/-- Witness of C1: of three images the second is unreachable; the third is
cached all the same and the stage fails reporting one failure. -/
theorem downloadImagesToCache_attempts_every_entry_witness :
    ["alpine:3.19", "missing:1", "busybox"][2]? = some "busybox" ∧
    entryFails envSecondUnreachable "/tmp/cache" 2 "busybox" = false ∧
    1 ≤ failedCount envSecondUnreachable "/tmp/cache" 0 ["alpine:3.19", "missing:1", "busybox"] ∧
    readImage (downloadImagesToCache envSecondUnreachable world0
        ["alpine:3.19", "missing:1", "busybox"] "/tmp/cache" false acceptAnything).1
        (ImageRef.layout "/tmp/cache" ("img-" ++ toString 2))
      = some ("docker://" ++ "busybox") ∧
    (downloadImagesToCache envSecondUnreachable world0
        ["alpine:3.19", "missing:1", "busybox"] "/tmp/cache" false acceptAnything).2
      = .error ("failed to download " ++ toString (failedCount envSecondUnreachable "/tmp/cache" 0
          ["alpine:3.19", "missing:1", "busybox"]) ++ " image(s)") :=
  ⟨rfl, by decide, by decide,
    ((downloadImagesToCache_attempts_every_entry envSecondUnreachable world0
      ["alpine:3.19", "missing:1", "busybox"] "/tmp/cache" false acceptAnything).2.2.1
        2 "busybox" rfl (by decide)).2,
    (downloadImagesToCache_attempts_every_entry envSecondUnreachable world0
      ["alpine:3.19", "missing:1", "busybox"] "/tmp/cache" false acceptAnything).2.2.2.2
        (by decide)⟩

/-! ## createArchiveFromCache -/

theorem readImage_of_slots (w w1 : World) (r : ImageRef) (h : w1.slots = w.slots) :
    readImage w1 r = readImage w r := by
  cases r <;> simp [readImage, h]

theorem layoutCalls_append (a b : List Event) :
    layoutCalls (a ++ b) = layoutCalls a ++ layoutCalls b := by
  simp [layoutCalls]

theorem closeCalls_append (a b : List Event) :
    closeCalls (a ++ b) = closeCalls a + closeCalls b := by
  simp [closeCalls]

theorem archiveEntry_spec (env : Env) (cacheDir : String) (pc : PolicyContext) (n i : Nat)
    (rawRef : String) (w : World) :
    layoutCalls (archiveEntry env cacheDir pc n i rawRef w).1.trace
      = layoutCalls w.trace ++ [(cacheDir, "img-" ++ toString i)] ∧
    closeCalls (archiveEntry env cacheDir pc n i rawRef w).1.trace = closeCalls w.trace ∧
    removals (archiveEntry env cacheDir pc n i rawRef w).1.trace = removals w.trace ∧
    writerCalls (archiveEntry env cacheDir pc n i rawRef w).1.trace = writerCalls w.trace ∧
    w.trace <+: (archiveEntry env cacheDir pc n i rawRef w).1.trace ∧
    (archiveEntry env cacheDir pc n i rawRef w).1.fs = w.fs ∧
    (archiveEntry env cacheDir pc n i rawRef w).1.slots = w.slots ∧
    (archiveEntry env cacheDir pc n i rawRef w).1.sealed = w.sealed ∧
    (archiveEntry env cacheDir pc n i rawRef w).1.log = w.log ∧
    ((archiveEntry env cacheDir pc n i rawRef w).2 = .ok () →
      w.sealed = false ∧
      ∃ named img, env.parseNormalizedNamedRes rawRef = .ok named ∧
        readImage w (ImageRef.layout cacheDir ("img-" ++ toString i)) = some img ∧
        (archiveEntry env cacheDir pc n i rawRef w).1.archive
          = w.archive ++ [(taggedOf named, img)] ∧
        copyCalls (archiveEntry env cacheDir pc n i rawRef w).1.trace
          = copyCalls w.trace ++ [(ImageRef.archive (taggedOf named),
              ImageRef.layout cacheDir ("img-" ++ toString i))]) ∧
    ((archiveEntry env cacheDir pc n i rawRef w).2 ≠ .ok () →
      (archiveEntry env cacheDir pc n i rawRef w).1.archive = w.archive) := by
  cases hL : env.layoutNewReferenceErr cacheDir ("img-" ++ toString i) with
  | some e =>
    simp [archiveEntry, layoutNewReference, layoutCalls, closeCalls, removals, writerCalls, copyCalls, World.emit, World.eprint, hL]
  | none =>
    cases hP : env.parseNormalizedNamedRes rawRef with
    | error e =>
      simp [archiveEntry, layoutNewReference, referenceParseNormalizedNamed, layoutCalls,
        closeCalls, removals, writerCalls, copyCalls, World.emit, World.eprint, hL, hP]
    | ok named =>
      have hrd : ∀ (w' : World), w'.slots = w.slots →
          readImage w' (ImageRef.layout cacheDir ("img-" ++ toString i))
            = readImage w (ImageRef.layout cacheDir ("img-" ++ toString i)) :=
        fun w' h => readImage_of_slots w w' _ h
      cases hT : named.tag with
      | some t =>
        have htag : taggedOf named = named := by simp [taggedOf, hT]
        cases hW : env.writerNewReferenceErr named with
        | some e =>
          simp [archiveEntry, layoutNewReference, referenceParseNormalizedNamed,
            writerNewReference, layoutCalls, closeCalls, removals, writerCalls, copyCalls, World.emit, World.eprint, hL, hP, hT, hW]
        | none =>
          cases hC : env.copyErr (ImageRef.archive named)
              (ImageRef.layout cacheDir ("img-" ++ toString i)) with
          | some e =>
            simp [archiveEntry, layoutNewReference, referenceParseNormalizedNamed,
              writerNewReference, copyImage, layoutCalls, closeCalls, removals, writerCalls, copyCalls, World.emit, World.eprint,
              hL, hP, hT, hW, hC]
          | none =>
            cases hR : readImage w (ImageRef.layout cacheDir ("img-" ++ toString i)) with
            | none =>
              simp [archiveEntry, layoutNewReference, referenceParseNormalizedNamed,
                writerNewReference, copyImage, layoutCalls, closeCalls, removals, writerCalls, copyCalls, World.emit,
                World.eprint, hL, hP, hT, hW, hC, hrd, hR]
            | some img =>
              cases hS : w.sealed with
              | true =>
                simp [archiveEntry, layoutNewReference, referenceParseNormalizedNamed,
                  writerNewReference, copyImage, layoutCalls, closeCalls, removals, writerCalls, copyCalls, World.emit,
                  World.eprint, hL, hP, hT, hW, hC, hrd, hR, hS]
              | false =>
                simp [archiveEntry, layoutNewReference, referenceParseNormalizedNamed,
                  writerNewReference, copyImage, layoutCalls, closeCalls, removals, writerCalls, copyCalls, World.emit,
                  World.eprint, hL, hP, hT, hW, hC, hrd, hR, hS, htag]
      | none =>
        have htag : taggedOf named = { named with tag := some "latest" } := by
          simp [taggedOf, hT]
        cases hG : env.withTagErr named "latest" with
        | some e =>
          simp [archiveEntry, layoutNewReference, referenceParseNormalizedNamed,
            referenceWithTag, layoutCalls, closeCalls, removals, writerCalls, copyCalls, World.emit, World.eprint, hL, hP, hT, hG]
        | none =>
          cases hW : env.writerNewReferenceErr { named with tag := some "latest" } with
          | some e =>
            simp [archiveEntry, layoutNewReference, referenceParseNormalizedNamed,
              referenceWithTag, writerNewReference, layoutCalls, closeCalls, removals, writerCalls, copyCalls, World.emit,
              World.eprint, hL, hP, hT, hG, hW]
          | none =>
            cases hC : env.copyErr (ImageRef.archive { named with tag := some "latest" })
                (ImageRef.layout cacheDir ("img-" ++ toString i)) with
            | some e =>
              simp [archiveEntry, layoutNewReference, referenceParseNormalizedNamed,
                referenceWithTag, writerNewReference, copyImage, layoutCalls, closeCalls, removals, writerCalls, copyCalls,
                World.emit, World.eprint, hL, hP, hT, hG, hW, hC]
            | none =>
              cases hR : readImage w (ImageRef.layout cacheDir ("img-" ++ toString i)) with
              | none =>
                simp [archiveEntry, layoutNewReference, referenceParseNormalizedNamed,
                  referenceWithTag, writerNewReference, copyImage, layoutCalls, closeCalls, removals, writerCalls, copyCalls,
                  World.emit, World.eprint, hL, hP, hT, hG, hW, hC, hrd, hR]
              | some img =>
                cases hS : w.sealed with
                | true =>
                  simp [archiveEntry, layoutNewReference, referenceParseNormalizedNamed,
                    referenceWithTag, writerNewReference, copyImage, layoutCalls, closeCalls, removals, writerCalls, copyCalls,
                    World.emit, World.eprint, hL, hP, hT, hG, hW, hC, hrd, hR, hS]
                | false =>
                  simp [archiveEntry, layoutNewReference, referenceParseNormalizedNamed,
                    referenceWithTag, writerNewReference, copyImage, layoutCalls, closeCalls, removals, writerCalls, copyCalls,
                    World.emit, World.eprint, hL, hP, hT, hG, hW, hC, hrd, hR, hS, htag]

theorem archiveEntry_archive_prefix (env : Env) (cacheDir : String) (pc : PolicyContext)
    (n i : Nat) (rawRef : String) (w : World) :
    w.archive <+: (archiveEntry env cacheDir pc n i rawRef w).1.archive := by
  obtain ⟨-, -, -, -, -, -, -, -, -, hok, herr⟩ := archiveEntry_spec env cacheDir pc n i rawRef w
  by_cases h : (archiveEntry env cacheDir pc n i rawRef w).2 = .ok ()
  · obtain ⟨-, named, img, -, -, ha, -⟩ := hok h
    rw [ha]
    exact List.prefix_append _ _
  · rw [herr h]

theorem archiveLoop_frame (env : Env) (cacheDir : String) (pc : PolicyContext) (n : Nat) :
    ∀ (l : List String) (i : Nat) (w : World),
      (archiveLoop env cacheDir pc n i l w).1.fs = w.fs ∧
      (archiveLoop env cacheDir pc n i l w).1.slots = w.slots ∧
      (archiveLoop env cacheDir pc n i l w).1.sealed = w.sealed ∧
      (archiveLoop env cacheDir pc n i l w).1.log = w.log ∧
      closeCalls (archiveLoop env cacheDir pc n i l w).1.trace = closeCalls w.trace ∧
      removals (archiveLoop env cacheDir pc n i l w).1.trace = removals w.trace ∧
      writerCalls (archiveLoop env cacheDir pc n i l w).1.trace = writerCalls w.trace ∧
      w.trace <+: (archiveLoop env cacheDir pc n i l w).1.trace ∧
      w.archive <+: (archiveLoop env cacheDir pc n i l w).1.archive := by
  intro l
  induction l with
  | nil => intro i w; simp [archiveLoop]
  | cons r rest ih =>
    intro i w
    obtain ⟨-, cC, cR, cW, cP, cF, cS, cE, cL, -, -⟩ :=
      archiveEntry_spec env cacheDir pc n i r w
    have cA := archiveEntry_archive_prefix env cacheDir pc n i r w
    simp only [archiveLoop]
    rcases he : archiveEntry env cacheDir pc n i r w with ⟨w1, e | u⟩
    · rw [he] at cC cR cW cP cF cS cE cL cA
      exact ⟨cF, cS, cE, cL, cC, cR, cW, cP, cA⟩
    · rw [he] at cC cR cW cP cF cS cE cL cA
      obtain ⟨k1, k2, k3, k4, k5, k6, k7, k8, k9⟩ := ih (i + 1) w1
      simp only at cC cR cW cP cF cS cE cL cA ⊢
      exact ⟨k1.trans cF, k2.trans cS, k3.trans cE, k4.trans cL, k5.trans cC, k6.trans cR,
        k7.trans cW, cP.trans k8, cA.trans k9⟩

theorem archiveLoop_append (env : Env) (cacheDir : String) (pc : PolicyContext) (n : Nat) :
    ∀ (pre rest : List String) (i : Nat) (w : World),
      archiveLoop env cacheDir pc n i (pre ++ rest) w
        = (match archiveLoop env cacheDir pc n i pre w with
          | (w1, .error err) => (w1, .error err)
          | (w1, .ok ()) => archiveLoop env cacheDir pc n (i + pre.length) rest w1) := by
  intro pre
  induction pre with
  | nil => intro rest i w; simp [archiveLoop]
  | cons r pre ih =>
    intro rest i w
    simp only [List.cons_append, archiveLoop, List.length_cons]
    rcases he : archiveEntry env cacheDir pc n i r w with ⟨w1, e | u⟩
    · rfl
    · have := ih rest (i + 1) w1
      have hlen : i + 1 + pre.length = i + (pre.length + 1) := by omega
      rw [hlen] at this
      exact this

theorem archiveLoop_ok (env : Env) (cacheDir : String) (pc : PolicyContext) (n : Nat) :
    ∀ (l : List String) (i : Nat) (w : World),
      (archiveLoop env cacheDir pc n i l w).2 = .ok () →
      (l ≠ [] → w.sealed = false) ∧
      layoutCalls (archiveLoop env cacheDir pc n i l w).1.trace
        = layoutCalls w.trace
          ++ (List.range' i l.length).map (fun k => (cacheDir, "img-" ++ toString k)) ∧
      ∃ entries : List (Named × String),
        (archiveLoop env cacheDir pc n i l w).1.archive = w.archive ++ entries ∧
        copyCalls (archiveLoop env cacheDir pc n i l w).1.trace
          = copyCalls w.trace ++ (List.zip entries (List.range' i l.length)).map
              (fun x => (ImageRef.archive x.1.1,
                ImageRef.layout cacheDir ("img-" ++ toString x.2))) ∧
        entries.length = l.length ∧
        ∀ (k : Nat) (rawRef : String), l[k]? = some rawRef →
          ∃ named img, env.parseNormalizedNamedRes rawRef = .ok named ∧
            readImage w (ImageRef.layout cacheDir ("img-" ++ toString (i + k))) = some img ∧
            entries[k]? = some (taggedOf named, img) := by
  intro l
  induction l with
  | nil =>
    intro i w _
    refine ⟨fun h => absurd rfl h, by simp [archiveLoop], [], by simp [archiveLoop], ?_, rfl, ?_⟩
    · simp [archiveLoop]
    · intro k rawRef h
      simp at h
  | cons r rest ih =>
    intro i w hok
    obtain ⟨e1, -, -, -, -, -, e5, -, -, eok, -⟩ := archiveEntry_spec env cacheDir pc n i r w
    simp only [archiveLoop] at hok ⊢
    rcases he : archiveEntry env cacheDir pc n i r w with ⟨w1, e | u⟩
    · rw [he] at hok
      cases hok
    · rw [he] at hok e1 e5 eok
      simp only at hok e1 e5 eok ⊢
      obtain ⟨hs, named, img, hp, hr, ha, hc⟩ := eok trivial
      obtain ⟨-, k1, entries, k2, k3, k4, k5⟩ := ih (i + 1) w1 hok
      refine ⟨fun _ => hs, ?_, (taggedOf named, img) :: entries, ?_, ?_, ?_, ?_⟩
      · rw [k1, e1, List.length_cons, List.range'_succ]
        simp [List.append_assoc]
      · rw [k2, ha]
        simp [List.append_assoc]
      · rw [k3, hc, List.length_cons, List.range'_succ]
        simp [List.append_assoc]
      · simp [k4]
      · intro k rawRef hk
        cases k with
        | zero =>
          simp only [List.getElem?_cons_zero, Option.some.injEq] at hk
          subst hk
          exact ⟨named, img, hp, by simpa using hr, by simp⟩
        | succ k =>
          simp only [List.getElem?_cons_succ] at hk
          obtain ⟨named', img', q1, q2, q3⟩ := k5 k rawRef hk
          refine ⟨named', img', q1, ?_, by simpa using q3⟩
          have he2 : i + (k + 1) = i + 1 + k := by omega
          rw [he2, ← readImage_of_slots w w1 _ e5]
          exact q2

theorem archiveNewWriter_spec (env : Env) (w : World) (path : String) :
    (archiveNewWriter env w path).1.trace = w.trace ++ [Event.newWriter path] ∧
    (archiveNewWriter env w path).1.slots = w.slots ∧
    (archiveNewWriter env w path).1.log = w.log ∧
    w.fs <+: (archiveNewWriter env w path).1.fs ∧
    ((archiveNewWriter env w path).2 = .ok () →
      (archiveNewWriter env w path).1.archive = [] ∧
      (archiveNewWriter env w path).1.sealed = false) ∧
    ((archiveNewWriter env w path).2 ≠ .ok () →
      (archiveNewWriter env w path).1.archive = w.archive ∧
      (archiveNewWriter env w path).1.sealed = w.sealed ∧
      (archiveNewWriter env w path).1.fs = w.fs) := by
  unfold archiveNewWriter
  cases env.newWriterErr w path with
  | some e => simp [World.emit]
  | none =>
    simp only [World.emit]
    cases lookupNode w.fs (splitPath path) with
    | none => simp
    | some nd =>
      cases nd with
      | file c => by_cases hc : c = "" <;> simp [hc]
      | dir p => simp
      | fifo p => simp

theorem writerClose_spec (env : Env) (w : World) :
    (writerClose env w).1.trace = w.trace ++ [Event.writerClose] ∧
    (writerClose env w).1.fs = w.fs ∧
    (writerClose env w).1.slots = w.slots ∧
    (writerClose env w).1.archive = w.archive ∧
    (writerClose env w).1.log = w.log ∧
    (writerClose env w).2
      = (match env.writerCloseErr w with
        | some e => .error e
        | none => .ok ()) ∧
    ((writerClose env w).2 = .ok () → (writerClose env w).1.sealed = true) ∧
    ((writerClose env w).2 ≠ .ok () → (writerClose env w).1.sealed = w.sealed) := by
  unfold writerClose
  cases env.writerCloseErr w <;> simp [World.emit]

theorem osStat_some (w : World) (path : String) (n : Node)
    (h : lookupNode w.fs (splitPath path) = some n) :
    osStat w path = (w.emit (Event.stat path), .ok n) := by
  have h2 : lookupNode (w.emit (Event.stat path)).fs (splitPath path) = some n := h
  simp only [osStat, h2]

theorem osStat_none (w : World) (path : String)
    (h : lookupNode w.fs (splitPath path) = none) :
    osStat w path = (w.emit (Event.stat path),
      .error ("stat " ++ path ++ ": no such file or directory")) := by
  have h2 : lookupNode (w.emit (Event.stat path)).fs (splitPath path) = none := h
  simp only [osStat, h2]

theorem lookupNode_filter_ne (fs : List (Path × Node)) (p : Path) :
    lookupNode (fs.filter (fun e => decide (e.1 ≠ p))) p = none := by
  apply lookupNode_eq_none_of_forall
  intro e he
  rw [List.mem_filter] at he
  simpa using he.2

theorem osRemove_spec (env : Env) (w : World) (path : String) :
    (osRemove env w path).1.trace = w.trace ++ [Event.remove path] ∧
    (osRemove env w path).1.slots = w.slots ∧
    (osRemove env w path).1.archive = w.archive ∧
    (osRemove env w path).1.sealed = w.sealed ∧
    (osRemove env w path).1.log = w.log ∧
    (osRemove env w path).1.stderr = w.stderr ∧
    ((osRemove env w path).2 = .ok () →
      (osRemove env w path).1.fs = w.fs.filter (fun e => decide (e.1 ≠ splitPath path)) ∧
      lookupNode (osRemove env w path).1.fs (splitPath path) = none) ∧
    ((osRemove env w path).2 ≠ .ok () → (osRemove env w path).1.fs = w.fs) := by
  unfold osRemove
  cases env.removeErr w path with
  | some e => simp [World.emit]
  | none =>
    simp only [World.emit]
    cases lookupNode w.fs (splitPath path) with
    | none => simp
    | some nd =>
      simp only
      split
      · simp
      · exact ⟨rfl, rfl, rfl, rfl, rfl, rfl, fun _ => ⟨rfl, lookupNode_filter_ne _ _⟩,
          fun h => absurd rfl h⟩

theorem osRemoveAll_frame (env : Env) (w : World) (path : String) :
    (osRemoveAll env w path).1.archive = w.archive ∧
    (osRemoveAll env w path).1.sealed = w.sealed ∧
    (osRemoveAll env w path).1.log = w.log ∧
    (osRemoveAll env w path).1.stderr = w.stderr := by
  unfold osRemoveAll
  by_cases hp : path = ""
  · simp [hp, World.emit]
  · simp only [hp, if_false]
    split <;> simp [World.emit]

theorem SetupPipe_spec (env : Env) (w : World) :
    (SetupPipe env w).1.archive = w.archive ∧
    (SetupPipe env w).1.sealed = w.sealed ∧
    (SetupPipe env w).1.stderr = w.stderr ∧
    copyCalls (SetupPipe env w).1.trace = copyCalls w.trace ∧
    layoutCalls (SetupPipe env w).1.trace = layoutCalls w.trace ∧
    closeCalls (SetupPipe env w).1.trace = closeCalls w.trace ∧
    writerCalls (SetupPipe env w).1.trace = writerCalls w.trace ∧
    w.trace <+: (SetupPipe env w).1.trace ∧
    ((∃ r, (SetupPipe env w).2 = .ok r) → (SetupPipe env w).1.slots = w.slots) := by
  unfold SetupPipe
  rcases hT : osMkdirTemp env w env.tempDir "pipeDir" with ⟨w1, e | pipeDir⟩
  · have hw : w1 = w.emit (Event.mkdirTemp env.tempDir "pipeDir") := by
      unfold osMkdirTemp at hT
      cases hm : env.mkdirTempRes w env.tempDir "pipeDir" <;> simp [hm] at hT
      exact hT.1.symm
    subst hw
    simp [World.emit, copyCalls, layoutCalls, closeCalls, writerCalls]
  · have hw : w1.trace = w.trace ++ [Event.mkdirTemp env.tempDir "pipeDir"] ∧
        w1.archive = w.archive ∧ w1.sealed = w.sealed ∧ w1.stderr = w.stderr ∧
        w1.slots = w.slots := by
      unfold osMkdirTemp at hT
      cases hm : env.mkdirTempRes w env.tempDir "pipeDir" <;> simp [hm] at hT
      rw [← hT.1]
      simp [World.emit]
    obtain ⟨t1, t2, t3, t4, t5⟩ := hw
    simp only
    rcases hF : unixMkfifo env w1 (pipeDir ++ "/" ++ "saveio") 0o600 with ⟨w2, e | u⟩
    · have hw2 : w2 = w1.emit (Event.mkfifo (pipeDir ++ "/" ++ "saveio") 0o600) := by
        unfold unixMkfifo at hF
        cases hm : env.mkfifoErr w1 (pipeDir ++ "/" ++ "saveio") 0o600 with
        | some e2 =>
          simp [hm] at hF
          exact hF.1.symm
        | none =>
          simp only [hm] at hF
          split at hF
          · simp at hF
            exact hF.1.symm
          · simp at hF
      have hR := osRemoveAll_trace env w2 pipeDir
      obtain ⟨f1, f2, f3, f4⟩ := osRemoveAll_frame env w2 pipeDir
      simp only
      rcases hr : osRemoveAll env w2 pipeDir with ⟨w3, e3 | u3⟩
      · rw [hr] at hR f1 f2 f3 f4
        simp only at hR f1 f2 f3 f4 ⊢
        simp [World.logError, hR, f1, f2, f4, hw2, t1, t2, t3, t4, World.emit, copyCalls,
          layoutCalls, closeCalls, writerCalls]
      · rw [hr] at hR f1 f2 f3 f4
        simp only at hR f1 f2 f3 f4 ⊢
        simp [hR, f1, f2, f4, hw2, t1, t2, t3, t4, World.emit, copyCalls, layoutCalls,
          closeCalls, writerCalls]
    · have hw2 : w2.trace = w1.trace ++ [Event.mkfifo (pipeDir ++ "/" ++ "saveio") 0o600] ∧
          w2.archive = w1.archive ∧ w2.sealed = w1.sealed ∧ w2.stderr = w1.stderr ∧
          w2.slots = w1.slots := by
        unfold unixMkfifo at hF
        cases hm : env.mkfifoErr w1 (pipeDir ++ "/" ++ "saveio") 0o600 with
        | some e2 => simp [hm] at hF
        | none =>
          simp only [hm] at hF
          split at hF
          · simp at hF
          · simp at hF
            rw [← hF]
            simp [World.emit]
      obtain ⟨g1, g2, g3, g4, g5⟩ := hw2
      simp [World.emit, g1, g2, g3, g4, g5, t1, t2, t3, t4, t5, copyCalls, layoutCalls,
        closeCalls, writerCalls]

theorem pipeCleanup_spec (env : Env) (w : World) (pipeDir : String) :
    (pipeCleanup env w pipeDir).1.trace
      = w.trace ++ [Event.removeAll pipeDir, Event.recvDrain] ∧
    (pipeCleanup env w pipeDir).1.archive = w.archive ∧
    (pipeCleanup env w pipeDir).1.sealed = w.sealed ∧
    (pipeCleanup env w pipeDir).1.stderr = w.stderr := by
  have hR := osRemoveAll_trace env w pipeDir
  obtain ⟨f1, f2, f3, f4⟩ := osRemoveAll_frame env w pipeDir
  unfold pipeCleanup
  rcases hr : osRemoveAll env w pipeDir with ⟨w3, e3 | u3⟩
  · rw [hr] at hR f1 f2 f3 f4
    simp only at hR f1 f2 f3 f4 ⊢
    simp [World.logError, World.emit, hR, f1, f2, f4]
  · rw [hr] at hR f1 f2 f3 f4
    simp only at hR f1 f2 f3 f4 ⊢
    simp [World.emit, hR, f1, f2, f4]

theorem outputDestination_terminal (env : Env) (w : World) (force : Bool)
    (h : env.stdoutIsTerminal = true) :
    outputDestination env w "" force
      = (w.emit Event.isTerminal, .error ("refusing to write archive to terminal. "
          ++ "Use -o to specify an output file or redirect to a file/pipe")) := by
  simp [outputDestination, termIsTerminal, h]

theorem outputDestination_exists (env : Env) (w : World) (outputFile : String) (n : Node)
    (h1 : outputFile ≠ "") (h2 : lookupNode w.fs (splitPath outputFile) = some n) :
    outputDestination env w outputFile false
      = (w.emit (Event.stat outputFile),
          .error ("output file " ++ outputFile ++ " already exists. Use -f to overwrite")) := by
  simp [outputDestination, h1, osStat_some w outputFile n h2]

theorem outputDestination_force (env : Env) (w : World) (outputFile : String) (n : Node)
    (h1 : outputFile ≠ "") (h2 : lookupNode w.fs (splitPath outputFile) = some n) :
    outputDestination env w outputFile true
      = (match osRemove env (w.emit (Event.stat outputFile)) outputFile with
        | (w2, .error err) => (w2, .error ("failed to remove existing archive file: " ++ err))
        | (w2, .ok ()) => (w2, .ok (outputFile, none))) := by
  simp [outputDestination, h1, osStat_some w outputFile n h2]

theorem outputDestination_absent (env : Env) (w : World) (outputFile : String) (force : Bool)
    (h1 : outputFile ≠ "") (h2 : lookupNode w.fs (splitPath outputFile) = none) :
    outputDestination env w outputFile force
      = (w.emit (Event.stat outputFile), .ok (outputFile, none)) := by
  simp [outputDestination, h1, osStat_none w outputFile h2]

theorem outputDestination_frame (env : Env) (w : World) (outputFile : String) (force : Bool) :
    (outputDestination env w outputFile force).1.archive = w.archive ∧
    (outputDestination env w outputFile force).1.sealed = w.sealed ∧
    (outputDestination env w outputFile force).1.stderr = w.stderr ∧
    copyCalls (outputDestination env w outputFile force).1.trace = copyCalls w.trace ∧
    layoutCalls (outputDestination env w outputFile force).1.trace = layoutCalls w.trace ∧
    closeCalls (outputDestination env w outputFile force).1.trace = closeCalls w.trace ∧
    writerCalls (outputDestination env w outputFile force).1.trace = writerCalls w.trace ∧
    w.trace <+: (outputDestination env w outputFile force).1.trace ∧
    ((∃ r, (outputDestination env w outputFile force).2 = .ok r) →
      (outputDestination env w outputFile force).1.slots = w.slots) := by
  by_cases h1 : outputFile = ""
  · subst h1
    cases hT : env.stdoutIsTerminal with
    | true =>
      rw [outputDestination_terminal env w force hT]
      simp [World.emit, copyCalls, layoutCalls, closeCalls, writerCalls]
    | false =>
      obtain ⟨s1, s2, s3, s4, s5, s6, s7, s8, s9⟩ := SetupPipe_spec env (w.emit Event.isTerminal)
      simp only [outputDestination, termIsTerminal, hT, beq_self_eq_true, if_true]
      rcases hS : SetupPipe env (w.emit Event.isTerminal) with ⟨w2, e | ⟨d, pd⟩⟩
      · rw [hS] at s1 s2 s3 s4 s5 s6 s7 s8
        simp only at s1 s2 s3 s4 s5 s6 s7 s8 ⊢
        refine ⟨s1, s2, s3, ?_, ?_, ?_, ?_, ?_, ?_⟩
        · simpa [World.emit, copyCalls] using s4
        · simpa [World.emit, layoutCalls] using s5
        · simpa [World.emit, closeCalls] using s6
        · simpa [World.emit, writerCalls] using s7
        · exact (List.prefix_append _ _).trans s8
        · intro h
          simp at h
      · rw [hS] at s1 s2 s3 s4 s5 s6 s7 s8 s9
        simp only at s1 s2 s3 s4 s5 s6 s7 s8 s9 ⊢
        refine ⟨s1, s2, s3, ?_, ?_, ?_, ?_, ?_, ?_⟩
        · simpa [World.emit, copyCalls] using s4
        · simpa [World.emit, layoutCalls] using s5
        · simpa [World.emit, closeCalls] using s6
        · simpa [World.emit, writerCalls] using s7
        · exact (List.prefix_append _ _).trans s8
        · intro _
          exact s9 ⟨_, rfl⟩
  · cases hL : lookupNode w.fs (splitPath outputFile) with
    | none =>
      rw [outputDestination_absent env w outputFile force h1 hL]
      simp [World.emit, copyCalls, layoutCalls, closeCalls, writerCalls]
    | some n =>
      cases force with
      | false =>
        rw [outputDestination_exists env w outputFile n h1 hL]
        simp [World.emit, copyCalls, layoutCalls, closeCalls, writerCalls]
      | true =>
        rw [outputDestination_force env w outputFile n h1 hL]
        obtain ⟨r1, r2, r3, r4, -, r6, -, -⟩ :=
          osRemove_spec env (w.emit (Event.stat outputFile)) outputFile
        rcases hR : osRemove env (w.emit (Event.stat outputFile)) outputFile with ⟨w2, e | u⟩
        · rw [hR] at r1 r2 r3 r4 r6
          simp only at r1 r2 r3 r4 r6 ⊢
          simp [r1, r2, r3, r4, r6, World.emit, copyCalls, layoutCalls, closeCalls, writerCalls]
        · rw [hR] at r1 r2 r3 r4 r6
          simp only at r1 r2 r3 r4 r6 ⊢
          simp [r1, r2, r3, r4, r6, World.emit, copyCalls, layoutCalls, closeCalls, writerCalls]

theorem archiveTo_writer_fails (env : Env) (w : World) (imageRefs : List String)
    (outputDest cacheDir : String) (pc : PolicyContext) (w1 : World) (e : String)
    (hw : archiveNewWriter env w outputDest = (w1, .error e)) :
    archiveTo env w imageRefs outputDest cacheDir pc
      = (w1, .error ("failed to create docker archive writer: " ++ e)) := by
  simp [archiveTo, hw]

theorem archiveTo_loop_fails (env : Env) (w : World) (imageRefs : List String)
    (outputDest cacheDir : String) (pc : PolicyContext) (w1 w2 : World) (e : String)
    (hw : archiveNewWriter env w outputDest = (w1, .ok ()))
    (hl : archiveLoop env cacheDir pc imageRefs.length 0 imageRefs w1 = (w2, .error e)) :
    archiveTo env w imageRefs outputDest cacheDir pc = (w2, .error e) := by
  simp [archiveTo, hw, hl]

theorem archiveTo_loop_ok (env : Env) (w : World) (imageRefs : List String)
    (outputDest cacheDir : String) (pc : PolicyContext) (w1 w2 : World)
    (hw : archiveNewWriter env w outputDest = (w1, .ok ()))
    (hl : archiveLoop env cacheDir pc imageRefs.length 0 imageRefs w1 = (w2, .ok ())) :
    archiveTo env w imageRefs outputDest cacheDir pc
      = ((writerClose env w2).1,
          match env.writerCloseErr w2 with
          | some e => .error ("failed to close archive writer: " ++ e)
          | none => .ok ()) := by
  simp only [archiveTo, hw, hl]
  unfold writerClose
  cases env.writerCloseErr w2 <;> rfl

theorem createArchiveFromCache_dest_fails (env : Env) (w : World) (imageRefs : List String)
    (outputFile cacheDir : String) (force : Bool) (pc : PolicyContext) (w1 : World)
    (e : String)
    (hd : outputDestination env
      (w.eprint "\nStage 2: Creating docker archive from cache...\n") outputFile force
        = (w1, .error e)) :
    createArchiveFromCache env w imageRefs outputFile cacheDir force pc = (w1, .error e) := by
  simp [createArchiveFromCache, hd]

theorem createArchiveFromCache_of_dest (env : Env) (w : World) (imageRefs : List String)
    (outputFile cacheDir : String) (force : Bool) (pc : PolicyContext) (w1 : World)
    (dest : String) (cleanup : Option String)
    (hd : outputDestination env
      (w.eprint "\nStage 2: Creating docker archive from cache...\n") outputFile force
        = (w1, .ok (dest, cleanup))) :
    (createArchiveFromCache env w imageRefs outputFile cacheDir force pc).2
      = (archiveTo env w1 imageRefs dest cacheDir pc).2 ∧
    (createArchiveFromCache env w imageRefs outputFile cacheDir force pc).1.archive
      = (archiveTo env w1 imageRefs dest cacheDir pc).1.archive ∧
    (createArchiveFromCache env w imageRefs outputFile cacheDir force pc).1.sealed
      = (archiveTo env w1 imageRefs dest cacheDir pc).1.sealed ∧
    (cleanup = none →
      createArchiveFromCache env w imageRefs outputFile cacheDir force pc
        = archiveTo env w1 imageRefs dest cacheDir pc) ∧
    ∃ post, (createArchiveFromCache env w imageRefs outputFile cacheDir force pc).1.trace
        = (archiveTo env w1 imageRefs dest cacheDir pc).1.trace ++ post ∧
      copyCalls post = [] ∧ layoutCalls post = [] ∧ closeCalls post = 0 ∧
      writerCalls post = [] := by
  simp only [createArchiveFromCache, hd]
  cases cleanup with
  | none => exact ⟨rfl, rfl, rfl, fun _ => rfl, [], by simp, rfl, rfl, rfl, rfl⟩
  | some pd =>
    obtain ⟨p1, p2, p3, -⟩ :=
      pipeCleanup_spec env (archiveTo env w1 imageRefs dest cacheDir pc).1 pd
    simp only
    rcases hc : pipeCleanup env (archiveTo env w1 imageRefs dest cacheDir pc).1 pd
      with ⟨w3, _ | we⟩
    · rw [hc] at p1 p2 p3
      simp only at p1 p2 p3 ⊢
      exact ⟨trivial, p2, p3, fun h => Option.noConfusion h,
        [Event.removeAll pd, Event.recvDrain], p1, rfl, rfl, rfl, rfl⟩
    · rw [hc] at p1 p2 p3
      simp only at p1 p2 p3 ⊢
      exact ⟨trivial, p2, p3, fun h => Option.noConfusion h,
        [Event.removeAll pd, Event.recvDrain], p1, rfl, rfl, rfl, rfl⟩

/-- C5: once the destination is determined and the archive writer created,
`createArchiveFromCache` returns the error of the first entry that fails in
any of its steps at once: the entries after it are not processed (the cache
references requested are those of the entries up to it) and the archive is
not sealed; when every entry succeeds the writer is closed exactly once, after
the copy of the last entry and with no copy after it, and a failure of the
close is returned as the error. -/
theorem createArchiveFromCache_fails_fast_seals_once (env : Env) (w : World)
    (imageRefs : List String) (outputFile cacheDir : String) (force : Bool)
    (pc : PolicyContext) (w1 w2 : World) (dest : String) (cleanup : Option String)
    (hd : outputDestination env
      (w.eprint "\nStage 2: Creating docker archive from cache...\n") outputFile force
        = (w1, .ok (dest, cleanup)))
    (hw : archiveNewWriter env w1 dest = (w2, .ok ())) :
    (∀ (pre : List String) (rawRef : String) (post : List String) (wj wf : World) (e : String),
      imageRefs = pre ++ rawRef :: post →
      archiveLoop env cacheDir pc imageRefs.length 0 pre w2 = (wj, .ok ()) →
      archiveEntry env cacheDir pc imageRefs.length pre.length rawRef wj = (wf, .error e) →
      (createArchiveFromCache env w imageRefs outputFile cacheDir force pc).2 = .error e ∧
      layoutCalls (createArchiveFromCache env w imageRefs outputFile cacheDir force pc).1.trace
        = layoutCalls w.trace
          ++ (List.range (pre.length + 1)).map (fun k => (cacheDir, "img-" ++ toString k)) ∧
      closeCalls (createArchiveFromCache env w imageRefs outputFile cacheDir force pc).1.trace
        = closeCalls w.trace ∧
      (createArchiveFromCache env w imageRefs outputFile cacheDir force pc).1.sealed = false) ∧
    (∀ (w3 : World),
      archiveLoop env cacheDir pc imageRefs.length 0 imageRefs w2 = (w3, .ok ()) →
      closeCalls (createArchiveFromCache env w imageRefs outputFile cacheDir force pc).1.trace
        = closeCalls w.trace + 1 ∧
      (∃ post, (createArchiveFromCache env w imageRefs outputFile cacheDir force pc).1.trace
          = w3.trace ++ Event.writerClose :: post ∧ copyCalls post = []) ∧
      (copyCalls w3.trace).length = (copyCalls w.trace).length + imageRefs.length ∧
      (createArchiveFromCache env w imageRefs outputFile cacheDir force pc).2
        = (match env.writerCloseErr w3 with
          | some e => .error ("failed to close archive writer: " ++ e)
          | none => .ok ()) ∧
      ((createArchiveFromCache env w imageRefs outputFile cacheDir force pc).1.sealed = true
        ↔ env.writerCloseErr w3 = none)) := by
  obtain ⟨c2, -, cs, -, post, ct, cpc, cpl, cpk, -⟩ :=
    createArchiveFromCache_of_dest env w imageRefs outputFile cacheDir force pc w1 dest cleanup hd
  obtain ⟨-, -, -, dc, dl, dk, -, -, -⟩ := outputDestination_frame env
    (w.eprint "\nStage 2: Creating docker archive from cache...\n") outputFile force
  rw [hd] at dc dl dk
  obtain ⟨nt, -, -, -, nok, -⟩ := archiveNewWriter_spec env w1 dest
  rw [hw] at nt nok
  simp only at dc dl dk nt nok
  have nsealed : w2.sealed = false := (nok trivial).2
  have hl2 : layoutCalls w2.trace = layoutCalls w.trace := by
    rw [nt, layoutCalls_append, dl]
    simp [layoutCalls, World.eprint]
  have hk2 : closeCalls w2.trace = closeCalls w.trace := by
    rw [nt, closeCalls_append, dk]
    simp [closeCalls, World.eprint]
  have hc2 : copyCalls w2.trace = copyCalls w.trace := by
    rw [nt]
    simp only [copyCalls, List.filterMap_append] at dc ⊢
    rw [dc]
    simp [World.eprint]
  refine ⟨?_, ?_⟩
  · intro pre rawRef rest wj wf e hsplit hpre hent
    have hloop : archiveLoop env cacheDir pc imageRefs.length 0 imageRefs w2 = (wf, .error e) := by
      have := archiveLoop_append env cacheDir pc imageRefs.length pre (rawRef :: rest) 0 w2
      rw [← hsplit, hpre] at this
      simp only [Nat.zero_add, archiveLoop, hent] at this
      exact this
    have hto := archiveTo_loop_fails env w1 imageRefs dest cacheDir pc w2 wf e hw hloop
    rw [hto] at c2 cs ct
    simp only at c2 cs ct
    obtain ⟨-, pl, -⟩ := archiveLoop_ok env cacheDir pc imageRefs.length pre 0 w2
      (by rw [hpre])
    obtain ⟨-, -, fsl, -, fk, -, -, -, -⟩ :=
      archiveLoop_frame env cacheDir pc imageRefs.length pre 0 w2
    rw [hpre] at pl fsl fk
    simp only at pl fsl fk
    obtain ⟨el, ek, -, -, -, -, -, ese, -, -, -⟩ :=
      archiveEntry_spec env cacheDir pc imageRefs.length pre.length rawRef wj
    rw [hent] at el ek ese
    simp only at el ek ese
    refine ⟨c2, ?_, ?_, ?_⟩
    · rw [ct, layoutCalls_append, cpl, List.append_nil, el, pl, hl2, List.range_succ,
        List.range_eq_range', List.map_append, List.append_assoc]
      rfl
    · rw [ct, closeCalls_append, cpk, Nat.add_zero, ek, fk, hk2]
    · rw [cs, ese, fsl, nsealed]
  · intro w3 hl
    have hto := archiveTo_loop_ok env w1 imageRefs dest cacheDir pc w2 w3 hw hl
    rw [hto] at c2 cs ct
    simp only at c2 cs ct
    obtain ⟨kt, -, -, -, -, kr, kok, kerr⟩ := writerClose_spec env w3
    obtain ⟨-, -, entries, -, pc3, plen, -⟩ :=
      archiveLoop_ok env cacheDir pc imageRefs.length imageRefs 0 w2 (by rw [hl])
    obtain ⟨-, -, fse, -, fk, -, -, -, -⟩ :=
      archiveLoop_frame env cacheDir pc imageRefs.length imageRefs 0 w2
    rw [hl] at pc3 fse fk
    simp only at pc3 fse fk
    refine ⟨?_, ⟨post, ?_, cpc⟩, ?_, c2, ?_⟩
    · rw [ct, closeCalls_append, cpk, kt, closeCalls_append, fk, hk2]
      rfl
    · rw [ct, kt]
      simp
    · rw [pc3, hc2]
      simp [plen]
    · rw [cs]
      cases hce : env.writerCloseErr w3 with
      | none =>
        have : (writerClose env w3).2 = .ok () := by rw [kr, hce]
        simp [kok this]
      | some e =>
        have : (writerClose env w3).2 ≠ .ok () := by rw [kr, hce]; simp
        rw [kerr this, fse, nsealed]
        simp

/-- Witness of C5: of three cached entries the copy of the second fails; the
third is never processed and the archive is not sealed. -/
theorem createArchiveFromCache_fails_fast_seals_once_witness :
    (createArchiveFromCache envSecondUnreadable worldCached
        ["alpine:3.19", "busybox", "redis:7"] "/out.tar" "/tmp/cache" false acceptAnything).2
      = .error "failed to archive image busybox: blob unknown" ∧
    layoutCalls (createArchiveFromCache envSecondUnreadable worldCached
        ["alpine:3.19", "busybox", "redis:7"] "/out.tar" "/tmp/cache" false
        acceptAnything).1.trace
      = [("/tmp/cache", "img-0"), ("/tmp/cache", "img-1")] ∧
    closeCalls (createArchiveFromCache envSecondUnreadable worldCached
        ["alpine:3.19", "busybox", "redis:7"] "/out.tar" "/tmp/cache" false
        acceptAnything).1.trace = 0 ∧
    (createArchiveFromCache envSecondUnreadable worldCached
        ["alpine:3.19", "busybox", "redis:7"] "/out.tar" "/tmp/cache" false
        acceptAnything).1.sealed = false :=
  (createArchiveFromCache_fails_fast_seals_once envSecondUnreadable worldCached
    ["alpine:3.19", "busybox", "redis:7"] "/out.tar" "/tmp/cache" false acceptAnything
    (outputDestination envSecondUnreadable (worldCached.eprint stage2Line) "/out.tar" false).1
    (archiveNewWriter envSecondUnreadable
      (outputDestination envSecondUnreadable (worldCached.eprint stage2Line) "/out.tar"
        false).1 "/out.tar").1
    "/out.tar" none rfl rfl).1
    ["alpine:3.19"] "busybox" ["redis:7"]
    (archiveLoop envSecondUnreadable "/tmp/cache" acceptAnything 3 0 ["alpine:3.19"]
      (archiveNewWriter envSecondUnreadable
        (outputDestination envSecondUnreadable (worldCached.eprint stage2Line) "/out.tar"
          false).1 "/out.tar").1).1
    (archiveEntry envSecondUnreadable "/tmp/cache" acceptAnything 3 1 "busybox"
      (archiveLoop envSecondUnreadable "/tmp/cache" acceptAnything 3 0 ["alpine:3.19"]
        (archiveNewWriter envSecondUnreadable
          (outputDestination envSecondUnreadable (worldCached.eprint stage2Line) "/out.tar"
            false).1 "/out.tar").1).1).1
    "failed to archive image busybox: blob unknown" rfl rfl rfl

theorem taggedOf_spec (named : Named) :
    (taggedOf named).name = named.name ∧
    (taggedOf named).tag = some (named.tag.getD "latest") := by
  unfold taggedOf
  cases h : named.tag <;> simp [h]

/-- C2: when `createArchiveFromCache` succeeds, the archive holds exactly one
entry per input reference, in input order: entry `k` carries the image of the
cache slot `img-<k>` and is tagged with the repository and tag parsed from
reference `k`, the tag being `latest` when the reference has none; the copies
made are, in order, those from slot `img-<k>` into entry `k`; and two
positions with the same reference get the same repository and tag. -/
theorem createArchiveFromCache_one_entry_per_reference (env : Env) (w : World)
    (imageRefs : List String) (outputFile cacheDir : String) (force : Bool)
    (pc : PolicyContext)
    (hok : (createArchiveFromCache env w imageRefs outputFile cacheDir force pc).2 = .ok ()) :
    (createArchiveFromCache env w imageRefs outputFile cacheDir force pc).1.archive.length
      = imageRefs.length ∧
    (∀ (k : Nat) (rawRef : String), imageRefs[k]? = some rawRef →
      ∃ named img, env.parseNormalizedNamedRes rawRef = .ok named ∧
        readImage w (ImageRef.layout cacheDir ("img-" ++ toString k)) = some img ∧
        (createArchiveFromCache env w imageRefs outputFile cacheDir force pc).1.archive[k]?
          = some (taggedOf named, img) ∧
        (taggedOf named).name = named.name ∧
        (taggedOf named).tag = some (named.tag.getD "latest")) ∧
    copyCalls (createArchiveFromCache env w imageRefs outputFile cacheDir force pc).1.trace
      = copyCalls w.trace ++ (List.zip
          (createArchiveFromCache env w imageRefs outputFile cacheDir force pc).1.archive
          (List.range imageRefs.length)).map
            (fun x => (ImageRef.archive x.1.1,
              ImageRef.layout cacheDir ("img-" ++ toString x.2))) ∧
    (∀ (k j : Nat) (rawRef : String) (x y : Named × String),
      imageRefs[k]? = some rawRef → imageRefs[j]? = some rawRef →
      (createArchiveFromCache env w imageRefs outputFile cacheDir force pc).1.archive[k]?
        = some x →
      (createArchiveFromCache env w imageRefs outputFile cacheDir force pc).1.archive[j]?
        = some y →
      x.1 = y.1) := by
  rcases hd : outputDestination env
      (w.eprint "\nStage 2: Creating docker archive from cache...\n") outputFile force
    with ⟨w1, e | ⟨dest, cleanup⟩⟩
  · rw [createArchiveFromCache_dest_fails env w imageRefs outputFile cacheDir force pc w1 e hd]
      at hok
    cases hok
  obtain ⟨c2, ca, -, -, post, ct, cpc, -, -, -⟩ :=
    createArchiveFromCache_of_dest env w imageRefs outputFile cacheDir force pc w1 dest cleanup hd
  obtain ⟨-, -, -, dc, -, -, -, -, ds⟩ := outputDestination_frame env
    (w.eprint "\nStage 2: Creating docker archive from cache...\n") outputFile force
  rw [hd] at dc ds
  simp only at dc ds
  have ds1 : w1.slots = w.slots := ds ⟨_, rfl⟩
  rcases hw : archiveNewWriter env w1 dest with ⟨w2, e | u⟩
  · rw [c2, archiveTo_writer_fails env w1 imageRefs dest cacheDir pc w2 e hw] at hok
    cases hok
  obtain ⟨nt, ns, -, -, nok, -⟩ := archiveNewWriter_spec env w1 dest
  rw [hw] at nt ns nok
  simp only at nt ns nok
  have na : w2.archive = [] := (nok trivial).1
  rcases hl : archiveLoop env cacheDir pc imageRefs.length 0 imageRefs w2 with ⟨w3, e | u⟩
  · rw [c2, archiveTo_loop_fails env w1 imageRefs dest cacheDir pc w2 w3 e hw hl] at hok
    cases hok
  have hto := archiveTo_loop_ok env w1 imageRefs dest cacheDir pc w2 w3 hw hl
  rw [hto] at ca ct
  simp only at ca ct
  obtain ⟨kt, -, -, ka, -, -, -, -⟩ := writerClose_spec env w3
  obtain ⟨-, -, entries, pa, pcc, plen, pel⟩ :=
    archiveLoop_ok env cacheDir pc imageRefs.length imageRefs 0 w2 (by rw [hl])
  rw [hl] at pa pcc
  simp only at pa pcc
  have harch : (createArchiveFromCache env w imageRefs outputFile cacheDir force pc).1.archive
      = entries := by
    rw [ca, ka, pa, na, List.nil_append]
  have hel : ∀ (k : Nat) (rawRef : String), imageRefs[k]? = some rawRef →
      ∃ named img, env.parseNormalizedNamedRes rawRef = .ok named ∧
        readImage w (ImageRef.layout cacheDir ("img-" ++ toString k)) = some img ∧
        entries[k]? = some (taggedOf named, img) := by
    intro k rawRef hk
    obtain ⟨named, img, q1, q2, q3⟩ := pel k rawRef hk
    refine ⟨named, img, q1, ?_, q3⟩
    rw [Nat.zero_add] at q2
    rw [← q2]
    exact (readImage_of_slots w w2 _ (ns.trans ds1)).symm
  rw [harch]
  refine ⟨plen, ?_, ?_, ?_⟩
  · intro k rawRef hk
    obtain ⟨named, img, q1, q2, q3⟩ := hel k rawRef hk
    exact ⟨named, img, q1, q2, q3, (taggedOf_spec named).1, (taggedOf_spec named).2⟩
  · have hc2 : copyCalls w2.trace = copyCalls w.trace := by
      rw [nt]
      simp only [copyCalls, List.filterMap_append] at dc ⊢
      rw [dc]
      simp [World.eprint]
    rw [ct, kt]
    simp only [copyCalls, List.filterMap_append] at cpc pcc hc2 ⊢
    rw [cpc, pcc, hc2, List.range_eq_range']
    simp
  · intro k j rawRef x y hk hj hx hy
    obtain ⟨named, img, q1, -, q3⟩ := hel k rawRef hk
    obtain ⟨named2, img2, r1, -, r3⟩ := hel j rawRef hj
    rw [q1] at r1
    cases r1
    rw [q3] at hx
    rw [r3] at hy
    cases hx
    cases hy
    rfl

/-- Witness of C2: the list `["alpine:3.19", "alpine:3.19"]` gives two entries,
both tagged `alpine:3.19`, the first from slot `img-0` and the second from
slot `img-1`. -/
theorem createArchiveFromCache_one_entry_per_reference_witness :
    (createArchiveFromCache envOk worldTwoAlpine ["alpine:3.19", "alpine:3.19"] "/out.tar"
      "/tmp/cache" false acceptAnything).2 = .ok () ∧
    (createArchiveFromCache envOk worldTwoAlpine ["alpine:3.19", "alpine:3.19"] "/out.tar"
      "/tmp/cache" false acceptAnything).1.archive
      = [({ name := "docker.io/library/alpine", tag := some "3.19", digest := none },
            "docker://alpine:3.19"),
          ({ name := "docker.io/library/alpine", tag := some "3.19", digest := none },
            "docker://alpine:3.19")] ∧
    (createArchiveFromCache envOk worldTwoAlpine ["alpine:3.19", "alpine:3.19"] "/out.tar"
      "/tmp/cache" false acceptAnything).1.archive.length
      = ["alpine:3.19", "alpine:3.19"].length ∧
    copyCalls (createArchiveFromCache envOk worldTwoAlpine ["alpine:3.19", "alpine:3.19"]
      "/out.tar" "/tmp/cache" false acceptAnything).1.trace
      = copyCalls worldTwoAlpine.trace ++ (List.zip
          (createArchiveFromCache envOk worldTwoAlpine ["alpine:3.19", "alpine:3.19"]
            "/out.tar" "/tmp/cache" false acceptAnything).1.archive
          (List.range ["alpine:3.19", "alpine:3.19"].length)).map
            (fun x => (ImageRef.archive x.1.1,
              ImageRef.layout "/tmp/cache" ("img-" ++ toString x.2))) :=
  ⟨rfl, by decide,
    (createArchiveFromCache_one_entry_per_reference envOk worldTwoAlpine
      ["alpine:3.19", "alpine:3.19"] "/out.tar" "/tmp/cache" false acceptAnything rfl).1,
    (createArchiveFromCache_one_entry_per_reference envOk worldTwoAlpine
      ["alpine:3.19", "alpine:3.19"] "/out.tar" "/tmp/cache" false acceptAnything rfl).2.2.1⟩

theorem archiveTo_frame (env : Env) (w : World) (imageRefs : List String)
    (outputDest cacheDir : String) (pc : PolicyContext) :
    (∃ rest, (archiveTo env w imageRefs outputDest cacheDir pc).1.trace
      = w.trace ++ Event.newWriter outputDest :: rest) ∧
    removals (archiveTo env w imageRefs outputDest cacheDir pc).1.trace = removals w.trace ∧
    w.fs <+: (archiveTo env w imageRefs outputDest cacheDir pc).1.fs ∧
    (archiveTo env w imageRefs outputDest cacheDir pc).1.slots = w.slots := by
  obtain ⟨nt, ns, -, nf, -, -⟩ := archiveNewWriter_spec env w outputDest
  rcases hw : archiveNewWriter env w outputDest with ⟨w1, e | u⟩
  · rw [archiveTo_writer_fails env w imageRefs outputDest cacheDir pc w1 e hw]
    rw [hw] at nt ns nf
    simp only at nt ns nf ⊢
    exact ⟨⟨[], nt⟩, by rw [nt]; simp [removals], nf, ns⟩
  · rw [hw] at nt ns nf
    simp only at nt ns nf
    obtain ⟨lf, ls, -, -, -, lr, -, lp, -⟩ :=
      archiveLoop_frame env cacheDir pc imageRefs.length imageRefs 0 w1
    rcases hl : archiveLoop env cacheDir pc imageRefs.length 0 imageRefs w1 with ⟨w2, e | u⟩
    · rw [archiveTo_loop_fails env w imageRefs outputDest cacheDir pc w1 w2 e hw hl]
      rw [hl] at lf ls lr lp
      simp only at lf ls lr lp ⊢
      obtain ⟨t, ht⟩ := lp
      refine ⟨⟨t, ?_⟩, ?_, ?_, ls.trans ns⟩
      · rw [← ht, nt]
        simp
      · rw [lr, nt]
        simp [removals]
      · rw [lf]
        exact nf
    · rw [archiveTo_loop_ok env w imageRefs outputDest cacheDir pc w1 w2 hw hl]
      rw [hl] at lf ls lr lp
      simp only at lf ls lr lp ⊢
      obtain ⟨kt, kf, ks, -, -, -, -, -⟩ := writerClose_spec env w2
      obtain ⟨t, ht⟩ := lp
      refine ⟨⟨t ++ [Event.writerClose], ?_⟩, ?_, ?_, (ks.trans ls).trans ns⟩
      · rw [kt, ← ht, nt]
        simp
      · rw [kt]
        simp only [removals, List.filterMap_append] at lr ⊢
        rw [lr, nt]
        simp
      · rw [kf, lf]
        exact nf

/-- C4: for a non-empty output path. If the file exists and the overwrite
flag is absent, `createArchiveFromCache` fails with the already-exists error
after the stat alone: the file system is unchanged, no writer is created and
nothing is copied. If the file exists and the flag is set, the file is removed
first: when the removal fails its error is returned and no writer is created;
when it succeeds the path is free and the archiving proceeds from there, the
removal preceding the creation of the writer. If the file does not exist, the
archiving proceeds and nothing is removed. -/
theorem createArchiveFromCache_existing_output (env : Env) (w : World)
    (imageRefs : List String) (outputFile cacheDir : String) (force : Bool)
    (pc : PolicyContext) (hne : outputFile ≠ "") :
    (∀ n, lookupNode w.fs (splitPath outputFile) = some n → force = false →
      (createArchiveFromCache env w imageRefs outputFile cacheDir force pc).2
        = .error ("output file " ++ outputFile ++ " already exists. Use -f to overwrite") ∧
      (createArchiveFromCache env w imageRefs outputFile cacheDir force pc).1.fs = w.fs ∧
      (createArchiveFromCache env w imageRefs outputFile cacheDir force pc).1.trace
        = w.trace ++ [Event.stat outputFile] ∧
      (createArchiveFromCache env w imageRefs outputFile cacheDir force pc).1.archive
        = w.archive ∧
      (createArchiveFromCache env w imageRefs outputFile cacheDir force pc).1.slots
        = w.slots) ∧
    (∀ n e, lookupNode w.fs (splitPath outputFile) = some n → force = true →
      (osRemove env ((w.eprint "\nStage 2: Creating docker archive from cache...\n").emit
        (Event.stat outputFile)) outputFile).2 = .error e →
      (createArchiveFromCache env w imageRefs outputFile cacheDir force pc).2
        = .error ("failed to remove existing archive file: " ++ e) ∧
      (createArchiveFromCache env w imageRefs outputFile cacheDir force pc).1.trace
        = w.trace ++ [Event.stat outputFile, Event.remove outputFile] ∧
      (createArchiveFromCache env w imageRefs outputFile cacheDir force pc).1.archive
        = w.archive) ∧
    (∀ n, lookupNode w.fs (splitPath outputFile) = some n → force = true →
      (osRemove env ((w.eprint "\nStage 2: Creating docker archive from cache...\n").emit
        (Event.stat outputFile)) outputFile).2 = .ok () →
      createArchiveFromCache env w imageRefs outputFile cacheDir force pc
        = archiveTo env (osRemove env
            ((w.eprint "\nStage 2: Creating docker archive from cache...\n").emit
              (Event.stat outputFile)) outputFile).1 imageRefs outputFile cacheDir pc ∧
      lookupNode (osRemove env
          ((w.eprint "\nStage 2: Creating docker archive from cache...\n").emit
            (Event.stat outputFile)) outputFile).1.fs (splitPath outputFile) = none ∧
      ∃ rest, (createArchiveFromCache env w imageRefs outputFile cacheDir force pc).1.trace
        = w.trace ++ Event.stat outputFile :: Event.remove outputFile
            :: Event.newWriter outputFile :: rest) ∧
    (lookupNode w.fs (splitPath outputFile) = none →
      createArchiveFromCache env w imageRefs outputFile cacheDir force pc
        = archiveTo env ((w.eprint "\nStage 2: Creating docker archive from cache...\n").emit
            (Event.stat outputFile)) imageRefs outputFile cacheDir pc ∧
      removals (createArchiveFromCache env w imageRefs outputFile cacheDir force pc).1.trace
        = removals w.trace ∧
      w.fs <+: (createArchiveFromCache env w imageRefs outputFile cacheDir force pc).1.fs) := by
  refine ⟨?_, ?_, ?_, ?_⟩
  · intro n hn hf
    subst hf
    rw [createArchiveFromCache_dest_fails env w imageRefs outputFile cacheDir false pc _ _
      (outputDestination_exists env _ outputFile n hne hn)]
    exact ⟨rfl, rfl, rfl, rfl, rfl⟩
  · intro n e hn hf hr
    subst hf
    obtain ⟨r1, -, r3, -, -, -, -, -⟩ := osRemove_spec env
      ((w.eprint "\nStage 2: Creating docker archive from cache...\n").emit
        (Event.stat outputFile)) outputFile
    have hd := outputDestination_force env
      (w.eprint "\nStage 2: Creating docker archive from cache...\n") outputFile n hne hn
    rcases hR : osRemove env
        ((w.eprint "\nStage 2: Creating docker archive from cache...\n").emit
          (Event.stat outputFile)) outputFile with ⟨w2, e2 | u⟩
    · rw [hR] at hr hd r1 r3
      simp only at hr hd r1 r3
      cases hr
      rw [createArchiveFromCache_dest_fails env w imageRefs outputFile cacheDir true pc _ _ hd]
      refine ⟨rfl, ?_, r3⟩
      rw [r1]
      simp [World.emit, World.eprint]
    · rw [hR] at hr
      cases hr
  · intro n hn hf hr
    subst hf
    obtain ⟨r1, -, -, -, -, -, rok, -⟩ := osRemove_spec env
      ((w.eprint "\nStage 2: Creating docker archive from cache...\n").emit
        (Event.stat outputFile)) outputFile
    have hd := outputDestination_force env
      (w.eprint "\nStage 2: Creating docker archive from cache...\n") outputFile n hne hn
    have hlook := (rok hr).2
    rcases hR : osRemove env
        ((w.eprint "\nStage 2: Creating docker archive from cache...\n").emit
          (Event.stat outputFile)) outputFile with ⟨w2, e2 | u⟩
    · rw [hR] at hr
      cases hr
    · rw [hR] at hd r1 hlook
      simp only at hd r1 hlook ⊢
      have heq := (createArchiveFromCache_of_dest env w imageRefs outputFile cacheDir true pc
        w2 outputFile none hd).2.2.2.1 rfl
      obtain ⟨⟨rest, ht⟩, -, -, -⟩ := archiveTo_frame env w2 imageRefs outputFile cacheDir pc
      refine ⟨heq, hlook, rest, ?_⟩
      rw [heq, ht, r1]
      simp [World.emit, World.eprint]
  · intro hn
    have hd := outputDestination_absent env
      (w.eprint "\nStage 2: Creating docker archive from cache...\n") outputFile force hne hn
    have heq := (createArchiveFromCache_of_dest env w imageRefs outputFile cacheDir force pc
      _ outputFile none hd).2.2.2.1 rfl
    obtain ⟨-, hr, hf, -⟩ := archiveTo_frame env
      ((w.eprint "\nStage 2: Creating docker archive from cache...\n").emit
        (Event.stat outputFile)) imageRefs outputFile cacheDir pc
    refine ⟨heq, ?_, ?_⟩
    · rw [heq, hr]
      simp [removals, World.emit, World.eprint]
    · rw [heq]
      exact hf

/-- Witness of C4: with `/out.tar` present, the run without the overwrite
flag fails and leaves the file system as it was, the run with the flag
removes the file, archives and succeeds. -/
theorem createArchiveFromCache_existing_output_witness :
    "/out.tar" ≠ "" ∧
    lookupNode worldExisting.fs (splitPath "/out.tar") = some (Node.file "old archive") ∧
    ((createArchiveFromCache envOk worldExisting ["alpine:3.19"] "/out.tar" "/tmp/cache" false
        acceptAnything).2
      = .error ("output file " ++ "/out.tar" ++ " already exists. Use -f to overwrite") ∧
    (createArchiveFromCache envOk worldExisting ["alpine:3.19"] "/out.tar" "/tmp/cache" false
        acceptAnything).1.fs = worldExisting.fs ∧
    (createArchiveFromCache envOk worldExisting ["alpine:3.19"] "/out.tar" "/tmp/cache" false
        acceptAnything).1.trace = worldExisting.trace ++ [Event.stat "/out.tar"] ∧
    (createArchiveFromCache envOk worldExisting ["alpine:3.19"] "/out.tar" "/tmp/cache" false
        acceptAnything).1.archive = worldExisting.archive ∧
    (createArchiveFromCache envOk worldExisting ["alpine:3.19"] "/out.tar" "/tmp/cache" false
        acceptAnything).1.slots = worldExisting.slots) ∧
    (createArchiveFromCache envOk worldExisting ["alpine:3.19"] "/out.tar" "/tmp/cache" true
        acceptAnything).2 = .ok () ∧
    (createArchiveFromCache envOk worldExisting ["alpine:3.19"] "/out.tar" "/tmp/cache" true
        acceptAnything).1.trace
      = [Event.stat "/out.tar", Event.remove "/out.tar", Event.newWriter "/out.tar",
          Event.layoutNewReference "/tmp/cache" "img-0",
          Event.parseNormalizedNamed "alpine:3.19",
          Event.writerNewReference
            { name := "docker.io/library/alpine", tag := some "3.19", digest := none },
          Event.copyImage
            (ImageRef.archive
              { name := "docker.io/library/alpine", tag := some "3.19", digest := none })
            (ImageRef.layout "/tmp/cache" "img-0"),
          Event.writerClose] :=
  ⟨by decide, by decide,
    (createArchiveFromCache_existing_output envOk worldExisting ["alpine:3.19"] "/out.tar"
      "/tmp/cache" false acceptAnything (by decide)).1 (Node.file "old archive") (by decide) rfl,
    rfl, by decide⟩

/-! ## run -/

theorem createPolicyContext_spec (env : Env) (w : World) :
    (createPolicyContext env w).1 = w.emit Event.newPolicyContext ∧
    (createPolicyContext env w).2
      = (match env.newPolicyContextErr
            { default := [PolicyRequirement.insecureAcceptAnything] } with
        | some e => .error ("error creating policy context: " ++ e)
        | none => .ok acceptAnything) := by
  unfold createPolicyContext signatureNewPolicyContext
  cases h : env.newPolicyContextErr { default := [PolicyRequirement.insecureAcceptAnything] } <;>
    simp [h, acceptAnything]

theorem run_setup_fails (env : Env) (w : World) (imageRefs : List String)
    (outputFile cacheDir : String) (noProgress force : Bool) (e : String)
    (hs : (setupCacheDir env w cacheDir).2 = .error e) :
    run env w imageRefs outputFile cacheDir noProgress force
      = ((setupCacheDir env w cacheDir).1, .error e) := by
  unfold run
  rcases h : setupCacheDir env w cacheDir with ⟨w1, e1 | u⟩
  · rw [h] at hs
    cases hs
    rfl
  · rw [h] at hs
    cases hs

theorem run_setup_ok (env : Env) (w : World) (imageRefs : List String)
    (outputFile cacheDir : String) (noProgress force : Bool)
    (hs : (setupCacheDir env w cacheDir).2 = .ok ()) :
    run env w imageRefs outputFile cacheDir noProgress force
      = (deferredCleanup env (runStages env (setupCacheDir env w cacheDir).1 imageRefs
            outputFile cacheDir noProgress force).1 cacheDir,
          (runStages env (setupCacheDir env w cacheDir).1 imageRefs outputFile cacheDir
            noProgress force).2) := by
  unfold run
  rcases h : setupCacheDir env w cacheDir with ⟨w1, e1 | u⟩
  · rw [h] at hs
    cases hs
  · rfl

theorem osRemoveAll_fs (env : Env) (w : World) (path : String) :
    ∃ f : Path × Node → Bool,
      (osRemoveAll env w path).1.fs = w.fs.filter f ∧
      ∀ e, inside (splitPath path) e.1 = false → f e = true := by
  unfold osRemoveAll
  by_cases hp : path = ""
  · refine ⟨fun _ => true, ?_, fun _ _ => rfl⟩
    simp [hp, World.emit]
  · simp only [hp, if_false]
    split
    · refine ⟨fun n => !(inside (splitPath path) n.1) || env.removeAllKeeps w path n.1, rfl, ?_⟩
      intro e he
      simp [he]
    · refine ⟨fun n => !(inside (splitPath path) n.1), rfl, ?_⟩
      intro e he
      simp [he]

theorem deferredCleanup_spec (env : Env) (w : World) (cacheDir : String) :
    (deferredCleanup env w cacheDir).trace = w.trace ++ [Event.removeAll cacheDir] ∧
    (deferredCleanup env w cacheDir).archive = w.archive ∧
    (deferredCleanup env w cacheDir).sealed = w.sealed ∧
    (deferredCleanup env w cacheDir).stderr = w.stderr ∧
    (deferredCleanup env w cacheDir).fs = (osRemoveAll env w cacheDir).1.fs ∧
    (deferredCleanup env w cacheDir).slots = (osRemoveAll env w cacheDir).1.slots ∧
    (deferredCleanup env w cacheDir).log
      = (match (osRemoveAll env w cacheDir).2 with
        | .error e => w.log ++ ["Failed to clean up cache directory: " ++ e]
        | .ok _ => w.log) := by
  have ht := osRemoveAll_trace env w cacheDir
  obtain ⟨f1, f2, f3, f4⟩ := osRemoveAll_frame env w cacheDir
  unfold deferredCleanup
  rcases h : osRemoveAll env w cacheDir with ⟨w1, e | u⟩
  · rw [h] at ht f1 f2 f3 f4
    simp only at ht f1 f2 f3 f4 ⊢
    simp [World.logError, ht, f1, f2, f3, f4]
  · rw [h] at ht f1 f2 f3 f4
    simp only at ht f1 f2 f3 f4 ⊢
    simp [ht, f1, f2, f3, f4]

theorem dirView_removed (w : World) (path : String) (fs : List (Path × Node))
    (slots : List ((Path × String) × String))
    (hf : w.fs = fs.filter (fun n => !(inside (splitPath path) n.1)))
    (hs : w.slots = slots.filter (fun s => !(inside (splitPath path) s.1.1))) :
    dirView w path = (none, [], []) := by
  unfold dirView
  have h1 : lookupNode w.fs (splitPath path) = none := by
    apply lookupNode_eq_none_of_forall
    intro e he heq
    rw [hf, List.mem_filter] at he
    have := he.2
    rw [heq, inside_self] at this
    simp at this
  have h2 : List.filter
      (fun e => inside (splitPath path) e.1 && decide (e.1 ≠ splitPath path)) w.fs = [] := by
    rw [List.filter_eq_nil_iff]
    intro e he
    rw [hf, List.mem_filter] at he
    have := he.2
    simp only [Bool.not_eq_true', ] at this
    simp [this]
  have h3 : List.filter (fun s => inside (splitPath path) s.1.1) w.slots = [] := by
    rw [List.filter_eq_nil_iff]
    intro e he
    rw [hs, List.mem_filter] at he
    simpa using he.2
  rw [h1, h2, h3]

/-- C8, amended: when the cache setup succeeds, whatever the stages after it
do (policy construction, acquisition, archiving, each succeeding or failing),
`run` removes the cache directory after the last of them and returns the
result of the stages: a failure of the removal is logged and changes nothing
in the result, a success leaves nothing at the path. When the cache setup
itself fails, `run` returns its error and nothing is done after it. -/
theorem run_teardown_after_stages (env : Env) (w : World) (imageRefs : List String)
    (outputFile cacheDir : String) (noProgress force : Bool) :
    ((setupCacheDir env w cacheDir).2 = .ok () →
      (run env w imageRefs outputFile cacheDir noProgress force).2
        = (runStages env (setupCacheDir env w cacheDir).1 imageRefs outputFile cacheDir
            noProgress force).2 ∧
      (run env w imageRefs outputFile cacheDir noProgress force).1.trace
        = (runStages env (setupCacheDir env w cacheDir).1 imageRefs outputFile cacheDir
            noProgress force).1.trace ++ [Event.removeAll cacheDir] ∧
      (run env w imageRefs outputFile cacheDir noProgress force).1.log
        = (match (osRemoveAll env (runStages env (setupCacheDir env w cacheDir).1 imageRefs
              outputFile cacheDir noProgress force).1 cacheDir).2 with
          | .error e =>
            (runStages env (setupCacheDir env w cacheDir).1 imageRefs outputFile cacheDir
              noProgress force).1.log ++ ["Failed to clean up cache directory: " ++ e]
          | .ok _ =>
            (runStages env (setupCacheDir env w cacheDir).1 imageRefs outputFile cacheDir
              noProgress force).1.log) ∧
      ((osRemoveAll env (runStages env (setupCacheDir env w cacheDir).1 imageRefs
          outputFile cacheDir noProgress force).1 cacheDir).2 = .ok () →
        dirView (run env w imageRefs outputFile cacheDir noProgress force).1 cacheDir
          = (none, [], []))) ∧
    (∀ e, (setupCacheDir env w cacheDir).2 = .error e →
      run env w imageRefs outputFile cacheDir noProgress force
        = ((setupCacheDir env w cacheDir).1, .error e)) := by
  refine ⟨?_, fun e he =>
    run_setup_fails env w imageRefs outputFile cacheDir noProgress force e he⟩
  intro hs
  rw [run_setup_ok env w imageRefs outputFile cacheDir noProgress force hs]
  obtain ⟨d1, -, -, -, d5, d6, d7⟩ := deferredCleanup_spec env
    (runStages env (setupCacheDir env w cacheDir).1 imageRefs outputFile cacheDir
      noProgress force).1 cacheDir
  refine ⟨rfl, d1, d7, ?_⟩
  intro hr
  obtain ⟨hp, -⟩ := setupCacheDir_ok_path env w cacheDir hs
  obtain ⟨-, r2, r3⟩ := osRemoveAll_ok env _ cacheDir hr hp
  exact dirView_removed _ cacheDir _ _ (d5.trans r2) (d6.trans r3)

/-- Witness of C8, amended: a run whose acquisition fails still removes the
cache directory after the stages and returns the acquisition error. -/
theorem run_teardown_after_stages_witness :
    (setupCacheDir envSecondUnreachable worldLeftover "/tmp/cache").2 = .ok () ∧
    (osRemoveAll envSecondUnreachable
      (runStages envSecondUnreachable
        (setupCacheDir envSecondUnreachable worldLeftover "/tmp/cache").1
        ["alpine:3.19", "missing:1"] "/out.tar" "/tmp/cache" false false).1
      "/tmp/cache").2 = .ok () ∧
    (run envSecondUnreachable worldLeftover ["alpine:3.19", "missing:1"] "/out.tar"
      "/tmp/cache" false false).2 = .error "failed to download 1 image(s)" ∧
    dirView (run envSecondUnreachable worldLeftover ["alpine:3.19", "missing:1"] "/out.tar"
      "/tmp/cache" false false).1 "/tmp/cache" = (none, [], []) :=
  ⟨rfl, rfl, rfl,
    ((run_teardown_after_stages envSecondUnreachable worldLeftover
      ["alpine:3.19", "missing:1"] "/out.tar" "/tmp/cache" false false).1 rfl).2.2.2 rfl⟩

/-- Counterexample to C8: the removal of a leftover cache directory fails
during the cache setup. `run` returns that error at once: nothing is called
after the setup stage, nothing is logged, and the directory is still there
with its stale contents. -/
theorem run_teardown_skipped_counterexample :
    (run envCleanFails worldLeftover ["alpine:3.19"] "/out.tar" "/tmp/cache" false false).2
      = .error "failed to clean cache directory: permission denied" ∧
    (setupCacheDir envCleanFails worldLeftover "/tmp/cache").1.trace
      = [Event.removeAll "/tmp/cache"] ∧
    (run envCleanFails worldLeftover ["alpine:3.19"] "/out.tar" "/tmp/cache" false false).1.trace
      = [Event.removeAll "/tmp/cache"] ∧
    (run envCleanFails worldLeftover ["alpine:3.19"] "/out.tar" "/tmp/cache" false false).1.log
      = [] ∧
    dirView (run envCleanFails worldLeftover ["alpine:3.19"] "/out.tar" "/tmp/cache" false
        false).1 "/tmp/cache"
      = (some (Node.dir 0o700),
          [(["tmp", "cache", "index.json"], Node.file "stale"),
            (["tmp", "cache", "blobs"], Node.dir 0o755)],
          [((["tmp", "cache"], "img-0"), "docker://stale:1")]) :=
  ⟨rfl, by decide, by decide, by decide, by decide⟩

theorem runStages_of_policy (env : Env) (w : World) (imageRefs : List String)
    (outputFile cacheDir : String) (noProgress force : Bool)
    (hp : env.newPolicyContextErr { default := [PolicyRequirement.insecureAcceptAnything] }
      = none) :
    runStages env w imageRefs outputFile cacheDir noProgress force
      = (match downloadImagesToCache env (w.emit Event.newPolicyContext) imageRefs cacheDir
            noProgress acceptAnything with
        | (w2, .error err) => (w2, .error err)
        | (w2, .ok ()) =>
          createArchiveFromCache env w2 imageRefs outputFile cacheDir force acceptAnything) := by
  obtain ⟨p1, p2⟩ := createPolicyContext_spec env w
  rw [hp] at p2
  unfold runStages
  rcases hc : createPolicyContext env w with ⟨w1, e | pc⟩
  · rw [hc] at p2
    cases p2
  · rw [hc] at p1 p2
    simp only at p1 p2
    cases p2
    subst p1
    rfl

theorem archivingCalls_append (a b : List Event) :
    archivingCalls (a ++ b) = archivingCalls a ++ archivingCalls b := by
  simp [archivingCalls]

theorem archivingCalls_downloadEvents (env : Env) (cacheDir : String) :
    ∀ (l : List String) (i : Nat), archivingCalls (downloadEvents env cacheDir i l) = [] := by
  intro l
  induction l with
  | nil => intro i; rfl
  | cons r rest ih =>
    intro i
    rw [downloadEvents, archivingCalls_append, ih]
    simp only [downloadEntryEvents, archivingCalls]
    split_ifs <;> simp

theorem writerCalls_downloadEvents (env : Env) (cacheDir : String) :
    ∀ (l : List String) (i : Nat), writerCalls (downloadEvents env cacheDir i l) = [] := by
  intro l
  induction l with
  | nil => intro i; rfl
  | cons r rest ih =>
    intro i
    have := ih (i + 1)
    simp only [writerCalls] at this ⊢
    rw [downloadEvents, List.filterMap_append, this]
    simp only [downloadEntryEvents]
    split_ifs <;> simp

theorem copyCalls_downloadEvents (env : Env) (cacheDir : String) :
    ∀ (l : List String) (i : Nat), failedCount env cacheDir i l = 0 →
      copyCalls (downloadEvents env cacheDir i l)
        = (List.zip l (List.range' i l.length)).map
            (fun x => (ImageRef.layout cacheDir ("img-" ++ toString x.2),
              ImageRef.docker ("docker://" ++ x.1))) := by
  intro l
  induction l with
  | nil => intro i _; rfl
  | cons r rest ih =>
    intro i hk
    simp only [failedCount] at hk
    have hf : entryFails env cacheDir i r = false := by
      cases h : entryFails env cacheDir i r
      · rfl
      · simp [h] at hk
    have hrest : failedCount env cacheDir (i + 1) rest = 0 := by omega
    have := ih (i + 1) hrest
    simp only [copyCalls] at this ⊢
    rw [downloadEvents, List.filterMap_append, this, List.length_cons, List.range'_succ]
    simp only [entryFails, Bool.or_eq_false_iff] at hf
    simp [downloadEntryEvents, hf.1.1, hf.1.2]

theorem lookupNode_mem (fs : List (Path × Node)) (q : Path) (n : Node)
    (h : lookupNode fs q = some n) : (q, n) ∈ fs := by
  unfold lookupNode at h
  cases hf : fs.find? (fun e => e.1 = q) with
  | none => simp [hf] at h
  | some e =>
    simp only [hf, Option.some.injEq] at h
    have h1 := List.find?_some hf
    have h2 := List.mem_of_find?_eq_some hf
    simp only [decide_eq_true_eq] at h1
    rw [← h1, ← h]
    exact h2

theorem lookupNode_filter_keep (fs : List (Path × Node)) (q : Path) (f : Path × Node → Bool)
    (h : ∀ e ∈ fs, e.1 = q → f e = true) :
    lookupNode (fs.filter f) q = lookupNode fs q := by
  induction fs with
  | nil => rfl
  | cons x xs ih =>
    have ih2 := ih (fun e he => h e (List.mem_cons_of_mem _ he))
    by_cases hx : x.1 = q
    · have hfx := h x (List.mem_cons_self _ _) hx
      simp [lookupNode, List.filter_cons, hfx, List.find?_cons, hx]
    · by_cases hfx : f x = true
      · simp only [lookupNode, List.filter_cons, hfx, if_true, List.find?_cons, hx,
          decide_False] at ih2 ⊢
        exact ih2
      · simp only [lookupNode, List.filter_cons, hfx, if_false, List.find?_cons, hx,
          decide_False] at ih2 ⊢
        exact ih2

theorem run_through_acquisition (env : Env) (w : World) (imageRefs : List String)
    (outputFile cacheDir : String) (noProgress force : Bool)
    (hs : (setupCacheDir env w cacheDir).2 = .ok ())
    (hp : env.newPolicyContextErr { default := [PolicyRequirement.insecureAcceptAnything] }
      = none) :
    (downloadImagesToCache env ((setupCacheDir env w cacheDir).1.emit Event.newPolicyContext)
        imageRefs cacheDir noProgress acceptAnything).1.trace
      = w.trace ++ [Event.removeAll cacheDir, Event.mkdirAll cacheDir 0o750,
          Event.newPolicyContext] ++ downloadEvents env cacheDir 0 imageRefs ∧
    (downloadImagesToCache env ((setupCacheDir env w cacheDir).1.emit Event.newPolicyContext)
        imageRefs cacheDir noProgress acceptAnything).1.fs = (setupCacheDir env w cacheDir).1.fs ∧
    (1 ≤ failedCount env cacheDir 0 imageRefs →
      run env w imageRefs outputFile cacheDir noProgress force
        = (deferredCleanup env (downloadImagesToCache env
              ((setupCacheDir env w cacheDir).1.emit Event.newPolicyContext)
              imageRefs cacheDir noProgress acceptAnything).1 cacheDir,
            .error ("failed to download " ++ toString (failedCount env cacheDir 0 imageRefs)
              ++ " image(s)"))) ∧
    (failedCount env cacheDir 0 imageRefs = 0 →
      run env w imageRefs outputFile cacheDir noProgress force
        = (deferredCleanup env (createArchiveFromCache env (downloadImagesToCache env
              ((setupCacheDir env w cacheDir).1.emit Event.newPolicyContext)
              imageRefs cacheDir noProgress acceptAnything).1 imageRefs outputFile cacheDir
              force acceptAnything).1 cacheDir,
            (createArchiveFromCache env (downloadImagesToCache env
              ((setupCacheDir env w cacheDir).1.emit Event.newPolicyContext)
              imageRefs cacheDir noProgress acceptAnything).1 imageRefs outputFile cacheDir
              force acceptAnything).2)) := by
  obtain ⟨d1, d2, -, -, -, -, d7⟩ := downloadImagesToCache_spec env
    ((setupCacheDir env w cacheDir).1.emit Event.newPolicyContext) imageRefs cacheDir
    noProgress acceptAnything
  have ht := (setupCacheDir_ok_view env w cacheDir hs).2
  refine ⟨?_, d2, ?_, ?_⟩
  · rw [d1]
    simp [World.emit, ht]
  · intro hk
    rw [run_setup_ok env w imageRefs outputFile cacheDir noProgress force hs,
      runStages_of_policy env _ imageRefs outputFile cacheDir noProgress force hp]
    rw [if_neg (by omega)] at d7
    rcases hdl : downloadImagesToCache env
        ((setupCacheDir env w cacheDir).1.emit Event.newPolicyContext) imageRefs cacheDir
        noProgress acceptAnything with ⟨w3, e | u⟩
    · rw [hdl] at d7
      simp only at d7
      cases d7
      rfl
    · rw [hdl] at d7
      cases d7
  · intro hk
    rw [run_setup_ok env w imageRefs outputFile cacheDir noProgress force hs,
      runStages_of_policy env _ imageRefs outputFile cacheDir noProgress force hp]
    rw [if_pos hk] at d7
    rcases hdl : downloadImagesToCache env
        ((setupCacheDir env w cacheDir).1.emit Event.newPolicyContext) imageRefs cacheDir
        noProgress acceptAnything with ⟨w3, e | u⟩
    · rw [hdl] at d7
      cases d7
    · rfl

/-- C3: in a run that reaches the acquisition stage and in which K >= 1 entries
fail, the archiving stage does not run. `run` returns the acquisition error;
after the acquisition the only call is the removal of the cache directory, so
the trace holds no call of the archiving stage (no check, removal or creation
of an output destination, no pipe, no writer, no archive entry); the archive
is as it was; and every file outside the cache directory, the output file
included, is left as the acquisition found it. -/
theorem run_acquisition_failure_skips_archiving (env : Env) (w : World)
    (imageRefs : List String) (outputFile cacheDir : String) (noProgress force : Bool)
    (hs : (setupCacheDir env w cacheDir).2 = .ok ())
    (hp : env.newPolicyContextErr { default := [PolicyRequirement.insecureAcceptAnything] }
      = none)
    (hk : 1 ≤ failedCount env cacheDir 0 imageRefs) :
    (run env w imageRefs outputFile cacheDir noProgress force).2
      = .error ("failed to download " ++ toString (failedCount env cacheDir 0 imageRefs)
          ++ " image(s)") ∧
    (run env w imageRefs outputFile cacheDir noProgress force).1.trace
      = w.trace ++ [Event.removeAll cacheDir, Event.mkdirAll cacheDir 0o750,
          Event.newPolicyContext] ++ downloadEvents env cacheDir 0 imageRefs
          ++ [Event.removeAll cacheDir] ∧
    archivingCalls (run env w imageRefs outputFile cacheDir noProgress force).1.trace
      = archivingCalls w.trace ∧
    writerCalls (run env w imageRefs outputFile cacheDir noProgress force).1.trace
      = writerCalls w.trace ∧
    (run env w imageRefs outputFile cacheDir noProgress force).1.archive = w.archive ∧
    (run env w imageRefs outputFile cacheDir noProgress force).1.sealed = w.sealed ∧
    (∀ (q : Path) (n : Node),
      lookupNode (downloadImagesToCache env
        ((setupCacheDir env w cacheDir).1.emit Event.newPolicyContext)
        imageRefs cacheDir noProgress acceptAnything).1.fs q = some n →
      inside (splitPath cacheDir) q = false →
      lookupNode (run env w imageRefs outputFile cacheDir noProgress force).1.fs q = some n) ∧
    (∀ (c : String),
      lookupNode (downloadImagesToCache env
        ((setupCacheDir env w cacheDir).1.emit Event.newPolicyContext)
        imageRefs cacheDir noProgress acceptAnything).1.fs (splitPath outputFile)
        = some (Node.file c) →
      lookupNode (run env w imageRefs outputFile cacheDir noProgress force).1.fs
        (splitPath outputFile) = some (Node.file c)) := by
  obtain ⟨t1, f1, hrun, -⟩ :=
    run_through_acquisition env w imageRefs outputFile cacheDir noProgress force hs hp
  obtain ⟨-, -, a3, a4, -, -, -⟩ := downloadImagesToCache_spec env
    ((setupCacheDir env w cacheDir).1.emit Event.newPolicyContext) imageRefs cacheDir
    noProgress acceptAnything
  obtain ⟨c1, c2, c3, -, c5, -, -⟩ := deferredCleanup_spec env (downloadImagesToCache env
    ((setupCacheDir env w cacheDir).1.emit Event.newPolicyContext)
    imageRefs cacheDir noProgress acceptAnything).1 cacheDir
  obtain ⟨f, hf1, hf2⟩ := osRemoveAll_fs env (downloadImagesToCache env
    ((setupCacheDir env w cacheDir).1.emit Event.newPolicyContext)
    imageRefs cacheDir noProgress acceptAnything).1 cacheDir
  have hsa : (setupCacheDir env w cacheDir).1.archive = w.archive ∧
      (setupCacheDir env w cacheDir).1.sealed = w.sealed := by
    rw [setupCacheDir_ok_world env w cacheDir hs]
    obtain ⟨r1, r2, -, -⟩ := osRemoveAll_frame env w cacheDir
    constructor
    · rw [← r1]
      unfold osMkdirAll
      repeat (first | split | simp [World.emit])
    · rw [← r2]
      unfold osMkdirAll
      repeat (first | split | simp [World.emit])
  have hframe : ∀ (q : Path) (n : Node),
      lookupNode (downloadImagesToCache env
        ((setupCacheDir env w cacheDir).1.emit Event.newPolicyContext)
        imageRefs cacheDir noProgress acceptAnything).1.fs q = some n →
      inside (splitPath cacheDir) q = false →
      lookupNode (deferredCleanup env (downloadImagesToCache env
        ((setupCacheDir env w cacheDir).1.emit Event.newPolicyContext)
        imageRefs cacheDir noProgress acceptAnything).1 cacheDir).fs q = some n := by
    intro q n hq hin
    rw [c5, hf1, lookupNode_filter_keep _ q f, hq]
    intro e _ he
    apply hf2
    rw [he]
    exact hin
  rw [hrun hk]
  refine ⟨rfl, ?_, ?_, ?_, ?_, ?_, hframe, ?_⟩
  · rw [c1, t1]
  · rw [c1, t1]
    simp only [archivingCalls_append, archivingCalls_downloadEvents]
    simp [archivingCalls]
  · rw [c1, t1]
    have := writerCalls_downloadEvents env cacheDir imageRefs 0
    simp only [writerCalls, List.filterMap_append] at this ⊢
    rw [this]
    simp
  · rw [c2, a3]
    exact hsa.1
  · rw [c3, a4]
    exact hsa.2
  · intro c hc
    apply hframe _ _ hc
    cases hin : inside (splitPath cacheDir) (splitPath outputFile) with
    | false => rfl
    | true =>
      exfalso
      have hv := (setupCacheDir_ok_view env w cacheDir hs).1
      unfold dirView at hv
      rw [f1] at hc
      have hmem := lookupNode_mem _ _ _ hc
      have h1 := (Prod.mk.inj hv).1
      have h2 := (Prod.mk.inj (Prod.mk.inj hv).2).1
      rw [List.filter_eq_nil_iff] at h2
      have h3 := h2 _ hmem
      simp only [hin, Bool.true_and, decide_eq_true_eq, ne_eq, not_not] at h3
      rw [h3, h1] at hc
      cases hc

/-- Witness of C3: the second of two images is unreachable and the overwrite
flag is set; the existing output file is untouched and the writer is never
created. -/
theorem run_acquisition_failure_skips_archiving_witness :
    (setupCacheDir envSecondUnreachable worldExisting "/tmp/cache").2 = .ok () ∧
    envSecondUnreachable.newPolicyContextErr
      { default := [PolicyRequirement.insecureAcceptAnything] } = none ∧
    1 ≤ failedCount envSecondUnreachable "/tmp/cache" 0 ["alpine:3.19", "missing:1"] ∧
    lookupNode (downloadImagesToCache envSecondUnreachable
        ((setupCacheDir envSecondUnreachable worldExisting "/tmp/cache").1.emit
          Event.newPolicyContext)
        ["alpine:3.19", "missing:1"] "/tmp/cache" false acceptAnything).1.fs
        (splitPath "/out.tar") = some (Node.file "old archive") ∧
    (run envSecondUnreachable worldExisting ["alpine:3.19", "missing:1"] "/out.tar"
      "/tmp/cache" false true).2
      = .error ("failed to download "
          ++ toString (failedCount envSecondUnreachable "/tmp/cache" 0
            ["alpine:3.19", "missing:1"]) ++ " image(s)") ∧
    writerCalls (run envSecondUnreachable worldExisting ["alpine:3.19", "missing:1"]
      "/out.tar" "/tmp/cache" false true).1.trace = writerCalls worldExisting.trace ∧
    lookupNode (run envSecondUnreachable worldExisting ["alpine:3.19", "missing:1"] "/out.tar"
      "/tmp/cache" false true).1.fs (splitPath "/out.tar") = some (Node.file "old archive") :=
  ⟨rfl, rfl, by decide, by decide,
    (run_acquisition_failure_skips_archiving envSecondUnreachable worldExisting
      ["alpine:3.19", "missing:1"] "/out.tar" "/tmp/cache" false true rfl rfl
      (by decide)).1,
    (run_acquisition_failure_skips_archiving envSecondUnreachable worldExisting
      ["alpine:3.19", "missing:1"] "/out.tar" "/tmp/cache" false true rfl rfl
      (by decide)).2.2.2.1,
    (run_acquisition_failure_skips_archiving envSecondUnreachable worldExisting
      ["alpine:3.19", "missing:1"] "/out.tar" "/tmp/cache" false true rfl rfl
      (by decide)).2.2.2.2.2.2.2 "old archive" (by decide)⟩

theorem trace_eprint_emit (w : World) (line : String) (e : Event) :
    ((w.eprint line).emit e).trace = w.trace ++ [e] := rfl

/-- C6, amended: in a run whose cache setup, policy construction and
acquisition all succeed, a destination precondition that fails (streamed
output with standard output a terminal, or an output file present when the
archiving stage starts and no overwrite flag) makes `run` fail with the
terminal or the already-exists error before any pipe, writer or archive copy:
after the acquisition the only calls are the check and the removal of the
cache directory. The check comes after the acquisition stage, whose calls,
one copy per image among them, precede it in the trace. -/
theorem run_destination_checked_after_acquisition (env : Env) (w : World)
    (imageRefs : List String) (outputFile cacheDir : String) (noProgress force : Bool)
    (hs : (setupCacheDir env w cacheDir).2 = .ok ())
    (hp : env.newPolicyContextErr { default := [PolicyRequirement.insecureAcceptAnything] }
      = none)
    (hk : failedCount env cacheDir 0 imageRefs = 0) :
    (outputFile = "" → env.stdoutIsTerminal = true →
      (run env w imageRefs outputFile cacheDir noProgress force).2
        = .error ("refusing to write archive to terminal. "
            ++ "Use -o to specify an output file or redirect to a file/pipe") ∧
      (run env w imageRefs outputFile cacheDir noProgress force).1.trace
        = w.trace ++ [Event.removeAll cacheDir, Event.mkdirAll cacheDir 0o750,
            Event.newPolicyContext] ++ downloadEvents env cacheDir 0 imageRefs
            ++ [Event.isTerminal, Event.removeAll cacheDir]) ∧
    (∀ n, outputFile ≠ "" →
      lookupNode (setupCacheDir env w cacheDir).1.fs (splitPath outputFile) = some n →
      force = false →
      (run env w imageRefs outputFile cacheDir noProgress force).2
        = .error ("output file " ++ outputFile ++ " already exists. Use -f to overwrite") ∧
      (run env w imageRefs outputFile cacheDir noProgress force).1.trace
        = w.trace ++ [Event.removeAll cacheDir, Event.mkdirAll cacheDir 0o750,
            Event.newPolicyContext] ++ downloadEvents env cacheDir 0 imageRefs
            ++ [Event.stat outputFile, Event.removeAll cacheDir]) ∧
    copyCalls (downloadEvents env cacheDir 0 imageRefs)
      = (List.zip imageRefs (List.range imageRefs.length)).map
          (fun x => (ImageRef.layout cacheDir ("img-" ++ toString x.2),
            ImageRef.docker ("docker://" ++ x.1))) ∧
    archivingCalls (downloadEvents env cacheDir 0 imageRefs) = [] := by
  obtain ⟨t1, f1, -, hrun⟩ :=
    run_through_acquisition env w imageRefs outputFile cacheDir noProgress force hs hp
  refine ⟨?_, ?_, ?_, archivingCalls_downloadEvents env cacheDir imageRefs 0⟩
  · intro ho ht
    subst ho
    rw [hrun hk, createArchiveFromCache_dest_fails env _ imageRefs "" cacheDir force
      acceptAnything _ _ (outputDestination_terminal env _ force ht)]
    refine ⟨rfl, ?_⟩
    rw [(deferredCleanup_spec env _ cacheDir).1, trace_eprint_emit, t1]
    simp
  · intro n ho hn hf
    subst hf
    rw [← f1] at hn
    rw [hrun hk, createArchiveFromCache_dest_fails env _ imageRefs outputFile cacheDir false
      acceptAnything _ _ (outputDestination_exists env _ outputFile n ho hn)]
    refine ⟨rfl, ?_⟩
    rw [(deferredCleanup_spec env _ cacheDir).1, trace_eprint_emit, t1]
    simp
  · rw [copyCalls_downloadEvents env cacheDir imageRefs 0 hk, List.range_eq_range']

/-- Witness of C6, amended: streaming one image to a terminal. -/
theorem run_destination_checked_after_acquisition_witness :
    (setupCacheDir envTerminal world0 "/tmp/cache").2 = .ok () ∧
    envTerminal.newPolicyContextErr
      { default := [PolicyRequirement.insecureAcceptAnything] } = none ∧
    failedCount envTerminal "/tmp/cache" 0 ["alpine:3.19"] = 0 ∧
    envTerminal.stdoutIsTerminal = true ∧
    (run envTerminal world0 ["alpine:3.19"] "" "/tmp/cache" false false).2
      = .error ("refusing to write archive to terminal. "
          ++ "Use -o to specify an output file or redirect to a file/pipe") ∧
    (run envTerminal world0 ["alpine:3.19"] "" "/tmp/cache" false false).1.trace
      = world0.trace ++ [Event.removeAll "/tmp/cache", Event.mkdirAll "/tmp/cache" 0o750,
          Event.newPolicyContext] ++ downloadEvents envTerminal "/tmp/cache" 0 ["alpine:3.19"]
          ++ [Event.isTerminal, Event.removeAll "/tmp/cache"] :=
  ⟨rfl, rfl, by decide, rfl,
    (run_destination_checked_after_acquisition envTerminal world0 ["alpine:3.19"] ""
      "/tmp/cache" false false rfl rfl (by decide)).1 rfl rfl⟩

/-- Counterexample to C6: streaming one image while standard output is a
terminal. The run does fail with the terminal error, but only after the image
has been fetched from the registry into the cache: the copy precedes the
terminal check in the trace. -/
theorem run_terminal_check_after_copy_counterexample :
    (run envTerminal world0 ["alpine:3.19"] "" "/tmp/cache" false false).2
      = .error ("refusing to write archive to terminal. "
          ++ "Use -o to specify an output file or redirect to a file/pipe") ∧
    (run envTerminal world0 ["alpine:3.19"] "" "/tmp/cache" false false).1.trace
      = [Event.removeAll "/tmp/cache", Event.mkdirAll "/tmp/cache" 0o750,
          Event.newPolicyContext, Event.parseImageName "docker://alpine:3.19",
          Event.layoutNewReference "/tmp/cache" "img-0",
          Event.copyImage (ImageRef.layout "/tmp/cache" "img-0")
            (ImageRef.docker "docker://alpine:3.19"),
          Event.isTerminal, Event.removeAll "/tmp/cache"] ∧
    copyCalls (run envTerminal world0 ["alpine:3.19"] "" "/tmp/cache" false false).1.trace
      = [(ImageRef.layout "/tmp/cache" "img-0", ImageRef.docker "docker://alpine:3.19")] :=
  ⟨rfl, by decide, by decide⟩

/-- C7, amended: when K >= 1 entries fail, the errors the loop has recorded
are the K messages of the failing entries in order, each wrapping the cause
(with the reference string for a parse or a copy failure, without it for a
cache-reference failure, never with the index); the stage prints the count K
and then each recorded message to standard error; and the error it returns
reports the count K and nothing else. -/
theorem downloadImagesToCache_reports_count (env : Env) (w : World)
    (imageRefs : List String) (cacheDir : String) (noProgress : Bool) (pc : PolicyContext)
    (hk : 1 ≤ failedCount env cacheDir 0 imageRefs) :
    (downloadLoop env cacheDir (if noProgress then none else some "stderr") pc
        imageRefs.length 0 imageRefs (w.eprint ("Stage 1: Downloading "
          ++ toString imageRefs.length
          ++ " images to OCI cache (with layer deduplication)...\n")) []).2
      = recordedErrors env cacheDir 0 imageRefs ∧
    (recordedErrors env cacheDir 0 imageRefs).length = failedCount env cacheDir 0 imageRefs ∧
    (∀ (i : Nat) (rawRef e : String),
      (env.parseImageNameErr ("docker://" ++ rawRef) = some e →
        entryError env cacheDir i rawRef
          = some ("invalid source image reference " ++ rawRef ++ ": " ++ e)) ∧
      (env.parseImageNameErr ("docker://" ++ rawRef) = none →
        env.layoutNewReferenceErr cacheDir ("img-" ++ toString i) = some e →
        entryError env cacheDir i rawRef
          = some ("failed to create OCI cache reference: " ++ e)) ∧
      (env.parseImageNameErr ("docker://" ++ rawRef) = none →
        env.layoutNewReferenceErr cacheDir ("img-" ++ toString i) = none →
        env.copyErr (ImageRef.layout cacheDir ("img-" ++ toString i))
          (ImageRef.docker ("docker://" ++ rawRef)) = some e →
        entryError env cacheDir i rawRef
          = some ("failed to cache image " ++ rawRef ++ ": " ++ e))) ∧
    (∃ pre, (downloadImagesToCache env w imageRefs cacheDir noProgress pc).1.stderr
      = pre ++ ("\n" ++ toString (failedCount env cacheDir 0 imageRefs)
            ++ " image(s) failed to download:\n")
          :: (recordedErrors env cacheDir 0 imageRefs).map
            (fun err => "  - " ++ err ++ "\n")) ∧
    (downloadImagesToCache env w imageRefs cacheDir noProgress pc).2
      = .error ("failed to download " ++ toString (failedCount env cacheDir 0 imageRefs)
          ++ " image(s)") := by
  obtain ⟨-, h2, -, -, -, -⟩ := downloadLoop_spec env cacheDir
    (if noProgress then none else some "stderr") pc imageRefs.length imageRefs 0
    (w.eprint ("Stage 1: Downloading " ++ toString imageRefs.length
      ++ " images to OCI cache (with layer deduplication)...\n")) []
  simp only [List.nil_append] at h2
  have hlen := recordedErrors_length env cacheDir imageRefs 0
  refine ⟨h2, hlen, ?_, ?_, ?_⟩
  · intro i rawRef e
    refine ⟨?_, ?_, ?_⟩
    · intro h1
      simp [entryError, h1]
    · intro h1 h3
      simp [entryError, h1, h3]
    · intro h1 h3 h4
      simp [entryError, h1, h3, h4]
  · unfold downloadImagesToCache
    simp only [h2, hlen]
    have hpos : failedCount env cacheDir 0 imageRefs > 0 := by omega
    simp only [if_pos hpos, foldl_eprint]
    refine ⟨(downloadLoop env cacheDir (if noProgress then none else some "stderr") pc
      imageRefs.length 0 imageRefs (w.eprint ("Stage 1: Downloading "
        ++ toString imageRefs.length
        ++ " images to OCI cache (with layer deduplication)...\n")) []).1.stderr, ?_⟩
    show (_ ++ [_]) ++ _ = _ ++ _ :: _
    rw [List.append_assoc]
    rfl
  · rw [(downloadImagesToCache_spec env w imageRefs cacheDir noProgress pc).2.2.2.2.2.2,
      if_neg (by omega)]

/-- Witness of C7, amended: two images whose cache reference cannot be made. -/
theorem downloadImagesToCache_reports_count_witness :
    1 ≤ failedCount envLayoutFails "/tmp/cache" 0 ["alpine", "busybox"] ∧
    recordedErrors envLayoutFails "/tmp/cache" 0 ["alpine", "busybox"]
      = ["failed to create OCI cache reference: invalid image reference",
          "failed to create OCI cache reference: invalid image reference"] ∧
    (downloadImagesToCache envLayoutFails world0 ["alpine", "busybox"] "/tmp/cache" false
        acceptAnything).2
      = .error ("failed to download "
          ++ toString (failedCount envLayoutFails "/tmp/cache" 0 ["alpine", "busybox"])
          ++ " image(s)") :=
  ⟨by decide, by decide,
    (downloadImagesToCache_reports_count envLayoutFails world0 ["alpine", "busybox"]
      "/tmp/cache" false acceptAnything (by decide)).2.2.2.2⟩

/-- Counterexample to C7: the error returned for the failed reference
`Alpine` is the one returned for the failed reference `Busybox`: it carries
the count and names no reference. And the errors recorded when the cache
reference of two entries cannot be made are the same message twice, with
neither the index nor the reference of the entry. -/
theorem downloadImagesToCache_error_names_nothing_counterexample :
    (downloadImagesToCache envParseFails world0 ["Alpine"] "/tmp/cache" false
        acceptAnything).2 = .error "failed to download 1 image(s)" ∧
    (downloadImagesToCache envParseFails world0 ["Busybox"] "/tmp/cache" false
        acceptAnything).2 = .error "failed to download 1 image(s)" ∧
    (downloadLoop envLayoutFails "/tmp/cache" (some "stderr") acceptAnything 2 0
        ["alpine", "busybox"] world0 []).2
      = ["failed to create OCI cache reference: invalid image reference",
          "failed to create OCI cache reference: invalid image reference"] :=
  ⟨rfl, rfl, by decide⟩

/-- C10: for the entry at index `i`, whatever its reference string, the
acquisition stage (once the source has parsed) and the archiving stage request
the same cache reference, with the tag `img-` followed by the decimal
rendering of `i`; and the tags of two different indices differ. -/
theorem cacheTag_positional_unique (env : Env) (cacheDir : String) (pw : Option String)
    (pc : PolicyContext) (n i j : Nat) (rawRef : String) (w : World) (errs : List String) :
    layoutCalls (downloadEntry env cacheDir pw pc n i rawRef w errs).1.trace
      = layoutCalls w.trace ++
        (if (env.parseImageNameErr ("docker://" ++ rawRef)).isSome then []
          else [(cacheDir, "img-" ++ Nat.repr i)]) ∧
    layoutCalls (archiveEntry env cacheDir pc n i rawRef w).1.trace
      = layoutCalls w.trace ++ [(cacheDir, "img-" ++ Nat.repr i)] ∧
    (i ≠ j → "img-" ++ Nat.repr i ≠ "img-" ++ Nat.repr j) := by
  refine ⟨?_, (archiveEntry_spec env cacheDir pc n i rawRef w).1, ?_⟩
  · rw [(downloadEntry_spec env cacheDir pw pc n i rawRef w errs).1, layoutCalls_append]
    congr 1
    simp only [downloadEntryEvents, layoutCalls]
    split_ifs <;> simp <;> rfl
  · intro hij h
    exact hij (cacheTag_injective i j h)

/-- Witness of C10: the same reference at the positions 0 and 1 gets the
cache tags `img-0` and `img-1`. -/
theorem cacheTag_positional_unique_witness :
    (0 : Nat) ≠ 1 ∧
    layoutCalls (downloadEntry envOk "/tmp/cache" none acceptAnything 2 0 "alpine:3.19"
        world0 []).1.trace = [("/tmp/cache", "img-0")] ∧
    layoutCalls (archiveEntry envOk "/tmp/cache" acceptAnything 2 1 "alpine:3.19"
        world0).1.trace = [("/tmp/cache", "img-1")] ∧
    "img-" ++ Nat.repr 0 ≠ "img-" ++ Nat.repr 1 :=
  ⟨by decide, by decide, by decide,
    (cacheTag_positional_unique envOk "/tmp/cache" none acceptAnything 2 0 1 "alpine:3.19"
      world0 []).2.2 (by decide)⟩

end ImagesArchiver
